import Mathlib

/-!
Task generator of the atwork refbox: a shallow embedding of
`atwork_refbox_ros_task_generator/src/TaskGenerator.cpp`.

Conventions of the embedding

* A `std::string` is a list of characters, one element per `char`.
* A function that can throw or run into undefined behaviour returns an `Outcome`:
  `ok v` (normal return), `thrown kind what` (a `throw` statement with its message) or
  `undefined` (an access outside a string or vector).
* `size_t` subtraction wraps around below zero (`sizeSub`), the `unsigned int` id counter wraps
  modulo `2^32`, conversions of an `int` option to `size_t` / `unsigned int` are taken modulo
  `2^64` / `2^32`.  Sizes of strings and vectors are below `2^64`; sums and products of `size_t`
  values that count entries held in memory are not reduced (a sum of fewer than `2^32` counts,
  each below `2^32`, stays below `2^64`).
* Pointers into the table registry are modelled by the table they point to (table names are the
  keys of the workstation map, hence unique); pointers into the `objects` vector are modelled
  by the position they point to.
* The random engine, `std::shuffle` and `std::uniform_int_distribution` belong to the standard
  library; they are a parameter (`RandomEngine`) of the operations that use them.
-/

namespace atwork_refbox_ros

/-- A `std::string`: one list element per `char`. -/
abbrev Str := List Char

/-- The throw sites of the file.  Every one of them throws a `std::runtime_error`; the kind records
which check raised it (the names follow section 7 of the specification).  `OutOfRange` is the
`std::out_of_range` of `std::string::substr`. -/
inductive ErrorKind where
  | InfeasibleConfiguration
  | InsufficientCavities
  | InsufficientContainers
  | UnknownTask
  | OutOfRange
  deriving DecidableEq, Repr

/-- Result of running a piece of the program. -/
inductive Outcome (α : Type) where
  | ok (value : α)
  | thrown (kind : ErrorKind) (what : Str)
  | undefined
  deriving DecidableEq, Repr

/-- Sequencing: the first throw or undefined access ends the run. -/
def Outcome.bind {α β : Type} (x : Outcome α) (f : α → Outcome β) : Outcome β :=
  match x with
  | .ok a => f a
  | .thrown k w => .thrown k w
  | .undefined => .undefined

instance : Monad Outcome where
  pure := Outcome.ok
  bind := Outcome.bind

/-- Whether the run returned normally. -/
def Outcome.isOk {α : Type} : Outcome α → Bool
  | .ok _ => true
  | _ => false

/-- Subtraction of two `size_t` values: for operands below `2^64` this is `(a - b) mod 2^64`. -/
def sizeSub (a b : Nat) : Nat := if b ≤ a then a - b else a + 2 ^ 64 - b

/-- Conversion of an `int` to `size_t`: a negative value wraps around (the value modulo `2^64`
for every value of `int`). -/
def toSize (v : Int) : Nat := if 0 ≤ v then v.toNat else (v + 2 ^ 64).toNat

/-- Conversion of an `int` to `unsigned int`: the value modulo `2^32`. -/
def toUInt (v : Int) : Nat := (v % 2 ^ 32).toNat

/-- The read access `s[i]` of `std::string`: defined for `i < size()`, yields the terminating
zero for `i == size()`, undefined beyond. -/
def charAt (s : Str) (i : Nat) : Outcome Char :=
  match s[i]? with
  | some c => .ok c
  | none => if i = s.length then .ok (Char.ofNat 0) else .undefined

/-- The call `s.substr(pos, n)`: throws `std::out_of_range` if `pos > size()`. -/
def substr (s : Str) (pos : Nat) (n : Nat) : Outcome Str :=
  if pos > s.length then .thrown .OutOfRange "basic_string::substr".toList
  else .ok ((s.drop pos).take n)

/-- The call `s.substr(pos)` (up to the end of the string). -/
def substrFrom (s : Str) (pos : Nat) : Outcome Str :=
  if pos > s.length then .thrown .OutOfRange "basic_string::substr".toList
  else .ok (s.drop pos)

inductive Orientation where
  | FREE
  | VERTICAL
  | HORIZONTAL
  deriving DecidableEq, Repr

/-- The enumeration `Type` of the source. -/
inductive ObjKind where
  | UNKNOWN
  | OBJECT
  | COLORED_OBJECT
  | CAVITY
  | CONTAINER
  deriving DecidableEq, Repr

/-- The test `regex_match( typeName, regex( "CONTAINER_.*" ) )`: the whole string has to match, and
in the default (ECMAScript) grammar `.` matches every character except the line terminators
`\n` and `\r`. -/
def matchesContainerRegex (typeName : Str) : Bool :=
  "CONTAINER_".toList.isPrefixOf typeName &&
    (typeName.drop 10).all (fun c => c != '\n' && c != '\r')

/-- The test `regex_match( key, regex("[A-Z0-9_]+") )`. -/
def matchesObjectRegex (key : Str) : Bool :=
  !key.isEmpty &&
    key.all (fun c => ('A' ≤ c && c ≤ 'Z') || ('0' ≤ c && c ≤ '9') || c == '_')

structure ObjectBase where
  type : ObjKind := .UNKNOWN
  form : Str := []
  color : Str := []
  orientation : Orientation := .FREE
  deriving DecidableEq, Repr

/-- Function `ObjectBase::extractType`.  `early` is the return taken inside the block guarded by
`preLast == '_'`, if any; otherwise control falls through to the pattern test. -/
def ObjectBase.extractType (typeName : Str) : Outcome ObjKind := do
  let len := typeName.length
  let preLast ← charAt typeName (sizeSub len 2)
  let early ←
    (if preLast = '_' then do
      let last ← charAt typeName (sizeSub len 1)
      if last = 'H' ∨ last = 'V' then pure (some ObjKind.CAVITY)
      else if last = 'G' ∨ last = 'B' then pure (some ObjKind.COLORED_OBJECT)
      else pure none
    else pure none : Outcome (Option ObjKind))
  match early with
  | some t => return t
  | none =>
    if matchesContainerRegex typeName then return ObjKind.CONTAINER
    else return ObjKind.OBJECT

/-- Function `ObjectBase::extractForm`; `type` is the member set before. -/
def ObjectBase.extractForm (type : ObjKind) (typeName : Str) : Outcome Str :=
  match type with
  | .CAVITY => substr typeName 0 (sizeSub typeName.length 2)
  | .COLORED_OBJECT => substr typeName 0 (sizeSub typeName.length 2)
  | .CONTAINER => .ok "DEFAULT".toList
  | _ => .ok typeName

/-- Function `ObjectBase::extractColor`. -/
def ObjectBase.extractColor (type : ObjKind) (typeName : Str) : Outcome Str :=
  match type with
  | .COLORED_OBJECT => substrFrom typeName (sizeSub typeName.length 1)
  | .CONTAINER => substrFrom typeName "CONTAINER_".length
  | _ => .ok "DEFAULT".toList

/-- Function `ObjectBase::extractOrientation`. -/
def ObjectBase.extractOrientation (type : ObjKind) (typeName : Str) : Outcome Orientation :=
  if type = .CAVITY then do
    let c ← charAt typeName (sizeSub typeName.length 1)
    if c = 'H' then return Orientation.HORIZONTAL
    else if c = 'V' then return Orientation.VERTICAL
    else return Orientation.FREE
  else .ok .FREE

/-- The constructor `ObjectBase(const string typeName)`; the members are initialised in the order
of their declaration. -/
def ObjectBase.fromTypeName (typeName : Str) : Outcome ObjectBase := do
  let type ← ObjectBase.extractType typeName
  let form ← ObjectBase.extractForm type typeName
  let color ← ObjectBase.extractColor type typeName
  let orientation ← ObjectBase.extractOrientation type typeName
  return { type := type, form := form, color := color, orientation := orientation }

/-- The classification as section 3 of the specification words it, for a code of at least two
characters: the container rule is "the code starts with `CONTAINER_`". -/
def specClassify (code : Str) : ObjectBase :=
  let preLast := code[code.length - 2]?
  let last := code[code.length - 1]?
  if preLast = some '_' ∧ (last = some 'H' ∨ last = some 'V') then
    { type := .CAVITY, form := code.take (code.length - 2), color := "DEFAULT".toList,
      orientation := if last = some 'V' then .VERTICAL else .HORIZONTAL }
  else if preLast = some '_' ∧ (last = some 'G' ∨ last = some 'B') then
    { type := .COLORED_OBJECT, form := code.take (code.length - 2),
      color := code.drop (code.length - 1), orientation := .FREE }
  else if "CONTAINER_".toList.isPrefixOf code then
    { type := .CONTAINER, form := "DEFAULT".toList, color := code.drop 10, orientation := .FREE }
  else
    { type := .OBJECT, form := code, color := "DEFAULT".toList, orientation := .FREE }

/-- The classification of section 3 with the container rule read as the source's pattern does,
on arbitrary strings: the string starts with `CONTAINER_` and no character after that start is a
line feed or a carriage return.  On type codes it is `specClassify`. -/
def lineSafeClassify (code : Str) : ObjectBase :=
  let preLast := code[code.length - 2]?
  let last := code[code.length - 1]?
  if preLast = some '_' ∧ (last = some 'H' ∨ last = some 'V') then
    { type := .CAVITY, form := code.take (code.length - 2), color := "DEFAULT".toList,
      orientation := if last = some 'V' then .VERTICAL else .HORIZONTAL }
  else if preLast = some '_' ∧ (last = some 'G' ∨ last = some 'B') then
    { type := .COLORED_OBJECT, form := code.take (code.length - 2),
      color := code.drop (code.length - 1), orientation := .FREE }
  else if "CONTAINER_".toList.isPrefixOf code ∧
      ∀ c ∈ code.drop 10, c ≠ '\n' ∧ c ≠ '\r' then
    { type := .CONTAINER, form := "DEFAULT".toList, color := code.drop 10, orientation := .FREE }
  else
    { type := .OBJECT, form := code, color := "DEFAULT".toList, orientation := .FREE }

/-- The struct `ObjectType`: a classification with a remaining count (`unsigned int`). -/
structure ObjectType extends ObjectBase where
  count : Nat := 0
  deriving DecidableEq, Repr

/-- The constructor `ObjectType( typeName, count )`. -/
def ObjectType.fromTypeName (typeName : Str) (count : Nat) : Outcome ObjectType := do
  let base ← ObjectBase.fromTypeName typeName
  return { toObjectBase := base, count := count }

structure Table where
  name : Str := []
  type : Str := []
  deriving DecidableEq, Repr

/-- The struct `Object`.  `container` points into the `objects` vector (a position). -/
structure Object extends ObjectBase where
  id : Nat := 0
  source : Option Table := none
  destination : Option Table := none
  container : Option Nat := none
  deriving DecidableEq, Repr

/-- The member initialiser `id=globalID++`: the value taken and the counter afterwards
(`unsigned int`). -/
def nextID (globalID : Nat) : Nat × Nat := (globalID, (globalID + 1) % 2 ^ 32)

/-- The constructor `Object()`: every member takes its default, the id is drawn from the
counter. -/
def Object.default (globalID : Nat) : Object × Nat :=
  ({ id := (nextID globalID).1 }, (nextID globalID).2)

/-- The constructor `Object(const ObjectType& type)`: copies the classification, the id is drawn
from the counter. -/
def Object.fromType (t : ObjectType) (globalID : Nat) : Object × Nat :=
  ({ toObjectBase := t.toObjectBase, id := (nextID globalID).1 }, (nextID globalID).2)

/-- The copy constructor `Object(const Object& copy): ObjectBase(copy), id(copy.id) {}`: the
classification and the id are copied; `source`, `destination` and `container` are set to their
default values.  (The implicit copy assignment, used by `*start = ...`, copies every member.) -/
def Object.copy (o : Object) : Object :=
  { toObjectBase := o.toObjectBase, id := o.id }

/-- Modelled from the spec: the type `TaskDefinition` of the header `TaskGenerator.h`, which is not
part of the sources, "a mapping from option name (string) to a numeric/boolean value".  The
entries are listed in the iteration order of the map; values are `int`. -/
abbrev TaskDefinition := List (Str × Int)

/-- Modelled from the spec: the type `TaskDefinitions` of the missing header, a mapping from task
name to `TaskDefinition`, entries in iteration order. -/
abbrev TaskDefinitions := List (Str × TaskDefinition)

/-- Modelled from the spec: the type `ArenaDescription` of the missing header, "workstations:
mapping from table name to table-type code, cavities: mapping from TypeCode to available
count", entries in iteration order. -/
structure ArenaDescription where
  workstations : List (Str × Str) := []
  cavities : List (Str × Nat) := []
  deriving DecidableEq, Repr

/-- Modelled from the spec: the type `Task` of the missing header, "the ordered collection of
ObjectInstances plus the originating task name".  `Task()` is the structure with every field at
its default. -/
structure Task where
  name : Str := []
  objects : List Object := []
  deriving DecidableEq, Repr

/-- The read `def[ key ]` of a task option: the stored value, `0` for an absent key.  (For an
absent key `operator[]` also stores the `0`; no read of the file tells a stored `0` from an absent
key except `find("seed")`, and `"seed"` is never read through `operator[]`.) -/
def TaskDefinition.opt (d : TaskDefinition) (key : String) : Int :=
  (d.lookup key.toList).getD 0

/-- The call `def.find( key )`. -/
def TaskDefinition.find (d : TaskDefinition) (key : String) : Option Int :=
  d.lookup key.toList

/-- The standard library's random machinery used by the generator: the engine state of
`default_random_engine`, its default state, `seed(value)`, a draw of
`uniform_int_distribution<size_t>(a, b)` and `std::shuffle`, together with what the standard
guarantees about them. -/
structure RandomEngine where
  State : Type
  init : State
  seed : Int → State
  uniform : Nat → Nat → State → Nat × State
  shuffle : List ObjectType → State → List ObjectType × State
  uniform_range : ∀ a b s, a ≤ b → a ≤ (uniform a b s).1 ∧ (uniform a b s).1 ≤ b
  shuffle_perm : ∀ l s, ((shuffle l s).1).Perm l

/-- The members of `TaskGeneratorImpl`.  `mTables` lists the entries of the multimap; the range
`mTables.equal_range( type )` is the sublist of the tables of that type. -/
structure TaskGeneratorImpl (R : RandomEngine) where
  mRand : R.State
  mTasks : TaskDefinitions
  mTables : List Table
  mAvailableCavities : List ObjectType

/-- The state a `generate` call works on: the engine `mRand`, the static counter
`Object::globalID`, and the local vector `objects` with its capacity. -/
structure GenState (R : RandomEngine) where
  rand : R.State
  globalID : Nat
  objects : List Object
  capacity : Nat

/-- The read `mTasks[ task ]`: the definition stored under the name (empty if there is none). -/
def taskDef (mTasks : TaskDefinitions) (task : Str) : TaskDefinition :=
  (mTasks.lookup task).getD []

/-- The call `mTables.count( type )`. -/
def countTables (mTables : List Table) (type : String) : Nat :=
  (mTables.filter (fun t => t.type = type.toList)).length

/-- The calls `v.emplace_back( item.first, item.second )` for the selected entries of a map, in
iteration order: every entry constructs an `ObjectType`. -/
def emplaceAll : List (Str × Nat) → Outcome (List ObjectType)
  | [] => .ok []
  | item :: rest => do
    let t ← ObjectType.fromTypeName item.1 item.2
    let ts ← emplaceAll rest
    return t :: ts

/-- Function `TaskGeneratorImpl::extractCavities`: the entries with a non-zero count; the count is
stored as `unsigned int`. -/
def extractCavities (arena : ArenaDescription) : Outcome (List ObjectType) :=
  emplaceAll ((arena.cavities.filter (fun item => item.2 ≠ 0)).map
    (fun item => (item.1, item.2 % 2 ^ 32)))

/-- Function `TaskGeneratorImpl::extractObjectTypes`: the entries of the task with a non-zero
value whose key matches `[A-Z0-9_]+`; the `int` value is stored as `unsigned int`. -/
def extractObjectTypes (mTasks : TaskDefinitions) (task : Str) : Outcome (List ObjectType) :=
  emplaceAll (((taskDef mTasks task).filter
    (fun item => item.2 ≠ 0 && matchesObjectRegex item.1)).map
    (fun item => (item.1, toUInt item.2)))

/-- The statement `throw runtime_error(os.str())` of the task-level check, the stream holding the
task name followed by the text. -/
def infeasible {α : Type} (task : Str) (text : String) : Outcome α :=
  .thrown .InfeasibleConfiguration (task ++ text.toList)

/-- Function `TaskGeneratorImpl::sanityCheck(task, availableObjects)`. -/
def sanityCheckTask (mTasks : TaskDefinitions) (mTables : List Table) (task : Str)
    (availableObjects : List ObjectType) : Outcome Unit :=
  let d := taskDef mTasks task
  if d.opt "object_count" ≥ 0 ∧ availableObjects = [] then
    infeasible task ": Transportation Task without allowed object defined!"
  else if d.opt "waypoint_count" ≥ 0 ∧ mTables.length < toSize (d.opt "waypoint_count") then
    infeasible task ": Navigation Task without enough workstations defined!"
  else if (d.opt "shelf_grasping" ≠ 0 ∨ d.opt "shelf_picking" ≠ 0)
      ∧ countTables mTables "SH" = 0 then
    infeasible task ": Transportation Task involving shelf requested in Arena without it!"
  else if (d.opt "rt_grasping" ≠ 0 ∨ d.opt "rt_picking" ≠ 0)
      ∧ countTables mTables "TT" = 0 then
    infeasible task
      ": Transportation Task involving Rotating Table requested in Arena without it!"
  else if d.opt "pp" ≠ 0 ∧ countTables mTables "PP" = 0 then
    infeasible task
      ": Transportation Task involving Precision Placement requested in Arena without it!"
  else if d.opt "table_height_0" ≠ 0 ∧ countTables mTables "00" = 0 then
    infeasible task
      ": Transportation Task involving zero height table requested in Arena without it!"
  else if d.opt "table_height_5" ≠ 0 ∧ countTables mTables "05" = 0 then
    infeasible task ": Transportation Task involving 5cm table requested in Arena without it!"
  else if d.opt "table_height_10" ≠ 0 ∧ countTables mTables "10" = 0 then
    infeasible task ": Transportation Task involving 5cm table requested in Arena without it!"
  else if d.opt "table_height_15" ≠ 0 ∧ countTables mTables "15" = 0 then
    infeasible task ": Transportation Task involving 5cm table requested in Arena without it!"
  else .ok ()

/-- Function `TaskGeneratorImpl::sanityCheck()`: the loop throws at the first task, in iteration
order, whose `object_count` and `waypoint_count` are both zero. -/
def sanityCheck (mTasks : TaskDefinitions) (mTables : List Table) : Outcome Unit :=
  if mTables.length < 2 then
    .thrown .InfeasibleConfiguration "At least two tables need to exist in the arena!".toList
  else if mTasks = [] then
    .thrown .InfeasibleConfiguration "No Tasks configured!".toList
  else
    match mTasks.find? (fun task =>
        task.2.opt "object_count" = 0 ∧ task.2.opt "waypoint_count" = 0) with
    | some task => .thrown .InfeasibleConfiguration (task.1 ++ ": Empty Task defined!".toList)
    | none => .ok ()

/-- Function `TaskGeneratorImpl::extractTablesByTypes`: the vector is sized to the number of
matching tables and then filled, type after type of the request, with the tables of
`mTables.equal_range( type )`. -/
def extractTablesByTypes (mTables : List Table) (types : List String) : List Table :=
  types.flatMap (fun type => mTables.filter (fun t => t.type = type.toList))

/-- Function `TaskGeneratorImpl::toPtr`: pointers to the elements at positions
`start, ..., stop - 1` of the `objects` vector. -/
def toPtr (start stop : Nat) : List Nat :=
  (List.range (stop - start)).map (fun i => start + i)

/-- The `n` elements appended by a growing `resize`: built by `Object()` one after the other, each
drawing an id; returns them and the counter afterwards. -/
def defaultObjects : Nat → Nat → List Object × Nat
  | 0, globalID => ([], globalID)
  | n + 1, globalID =>
    let o := Object.default globalID
    let rest := defaultObjects n o.2
    (o.1 :: rest.1, rest.2)

/-- The call `objects.resize( objects.size() + n )`.  Nothing happens for `n = 0`.  Otherwise `n`
objects are built by `Object()`; when the capacity does not suffice the vector moves to new
storage of capacity `size + max(size, n)` (the growth rule of libstdc++) and the elements held
before are rebuilt there by the copy constructor of `Object`. -/
def resizeObjects {R : RandomEngine} (st : GenState R) (n : Nat) : GenState R :=
  if n = 0 then st
  else
    let fresh := defaultObjects n st.globalID
    if st.objects.length + n ≤ st.capacity then
      { st with objects := st.objects ++ fresh.1, globalID := fresh.2 }
    else
      { st with
        objects := st.objects.map Object.copy ++ fresh.1
        globalID := fresh.2
        capacity := st.objects.length + max st.objects.length n }

/-- The temporaries `Object(t)` built for the types handed in, in order, each drawing an id. -/
def objectsFromTypes : List ObjectType → Nat → List Object × Nat
  | [], globalID => ([], globalID)
  | t :: ts, globalID =>
    let o := Object.fromType t globalID
    let rest := objectsFromTypes ts o.2
    (o.1 :: rest.1, rest.2)

/-- The two assignments `p->source = table; p->destination = table;` on the object at position
`p`. -/
def setTables (objects : List Object) (p : Nat) (table : Table) : List Object :=
  objects.modify (fun o => { o with source := some table, destination := some table }) p

/-- The loop `for (auto& cavityPtr : cavities)` of `generateCavities`: one draw of
`rand(0, n-1)` per cavity, the table read is `ppTables[ rand(mRand) ]`. -/
def assignCavityTables (R : RandomEngine) (ppTables : List Table) (n : Nat) :
    List Nat → R.State → List Object → Outcome (R.State × List Object)
  | [], rand, objects => .ok (rand, objects)
  | p :: ps, rand, objects =>
    let draw := R.uniform 0 (sizeSub n 1) rand
    match ppTables[draw.1]? with
    | none => .undefined
    | some table => assignCavityTables R ppTables n ps draw.2 (setTables objects p table)

/-- Function `TaskGeneratorImpl::generateCavities`; returns the pointer vector `cavities`.
`transform` reads `cavitiesToGenerate` elements from the start of the shuffled
`availableCavities` (a read past its end when that vector is shorter) and assigns the
temporaries `Object(t)` to the positions `start, ...` of `objects`. -/
def generateCavities (R : RandomEngine) (mTables : List Table)
    (availableCavities : List ObjectType) (st : GenState R) : Outcome (List Nat × GenState R) :=
  let cavitiesPerPPT := 5
  let n := countTables mTables "PP"
  let numCavitiesAvailable := (availableCavities.map (fun t => t.count)).sum
  let cavitiesToGenerate := min (n * cavitiesPerPPT) numCavitiesAvailable
  let resized := resizeObjects st cavitiesToGenerate
  let start := resized.objects.length - cavitiesToGenerate
  let shuffled := R.shuffle availableCavities st.rand
  if cavitiesToGenerate ≤ shuffled.1.length then
    let fresh := objectsFromTypes (shuffled.1.take cavitiesToGenerate) resized.globalID
    let objects := resized.objects.take start ++ fresh.1
    let ppTables := extractTablesByTypes mTables ["PP"]
    let cavities := toPtr start objects.length
    match assignCavityTables R ppTables n cavities shuffled.2 objects with
    | .ok (rand, objects) =>
      .ok (cavities, { resized with rand := rand, globalID := fresh.2, objects := objects })
    | .thrown k w => .thrown k w
    | .undefined => .undefined
  else .undefined

/-- The inner loop `for ( size_t i = 0; i < type.count; i++)` of `generateContainers` for one
container type: `Object temp(type)`, one draw of `rand(0, tables.size()-1)`, the table read
`tables[ rand( mRand ) ]`, the two assignments, and the object handed to `*start++ = temp`. -/
def containerUnits (R : RandomEngine) (tables : List Table) (type : ObjectType) :
    Nat → R.State → Nat → Outcome (List Object × R.State × Nat)
  | 0, rand, globalID => .ok ([], rand, globalID)
  | i + 1, rand, globalID =>
    let temp := Object.fromType type globalID
    let draw := R.uniform 0 (sizeSub tables.length 1) rand
    match tables[draw.1]? with
    | none => .undefined
    | some table =>
      match containerUnits R tables type i draw.2 temp.2 with
      | .ok (rest, rand, globalID) =>
        .ok ({ temp.1 with source := some table, destination := some table } :: rest,
          rand, globalID)
      | .thrown k w => .thrown k w
      | .undefined => .undefined

/-- The outer loop `for ( const auto& type : availableObjects )` of `generateContainers`: the
objects written through `start`, in order. -/
def containerObjects (R : RandomEngine) (tables : List Table) :
    List ObjectType → R.State → Nat → Outcome (List Object × R.State × Nat)
  | [], rand, globalID => .ok ([], rand, globalID)
  | type :: rest, rand, globalID =>
    if type.type = .CONTAINER then
      match containerUnits R tables type type.count rand globalID with
      | .ok (units, rand, globalID) =>
        match containerObjects R tables rest rand globalID with
        | .ok (more, rand, globalID) => .ok (units ++ more, rand, globalID)
        | .thrown k w => .thrown k w
        | .undefined => .undefined
      | .thrown k w => .thrown k w
      | .undefined => .undefined
    else containerObjects R tables rest rand globalID

/-- The value `numContainersAvailable` of `generateContainers`. -/
def numContainersAvailable (availableObjects : List ObjectType) : Nat :=
  (availableObjects.map (fun t => if t.type = .CONTAINER then t.count else 0)).sum

/-- The vector `allowedTableTypes` of `generateContainers`. -/
def allowedTableTypes (d : TaskDefinition) : List String :=
  ["00", "05", "10", "15"] ++ (if d.opt "container_in_shelf" ≠ 0 then ["Shelf"] else [])

/-- Function `TaskGeneratorImpl::generateContainers`; returns the pointer vector
`toPtr( objects.end() - numContainersAvailable, objects.end() )`. -/
def generateContainers (R : RandomEngine) (mTables : List Table) (d : TaskDefinition)
    (availableObjects : List ObjectType) (st : GenState R) : Outcome (List Nat × GenState R) :=
  let resized := resizeObjects st (numContainersAvailable availableObjects)
  let start := resized.objects.length - numContainersAvailable availableObjects
  let tables := extractTablesByTypes mTables (allowedTableTypes d)
  match containerObjects R tables availableObjects st.rand resized.globalID with
  | .ok (made, rand, globalID) =>
    let objects := resized.objects.take start ++ made
    .ok (toPtr (objects.length - numContainersAvailable availableObjects) objects.length,
      { resized with rand := rand, globalID := globalID, objects := objects })
  | .thrown k w => .thrown k w
  | .undefined => .undefined

/-- Function `place( def, availableObjects, objects, Object& container )`; the reference is the
position of the object in `objects`. -/
def place (d : TaskDefinition) (objects : List Object) (container : Nat) : List Object :=
  objects.modify (fun o =>
    if o.type = .CAVITY ∧ d.opt "pp_team_orientation" ≠ 0 then
      { o with orientation := .FREE }
    else o) container

/-- The call `iter_swap(selected, last)` on the pointer vector, for two valid positions. -/
def iterSwap (v : List Nat) (selected last : Nat) : List Nat :=
  match v[selected]?, v[last]? with
  | some a, some b => (v.set selected b).set last a
  | _, _ => v

/-- The loop `for ( size_t i = 0; i < def[ "pp" ]; i++ )` of `generate`, for the iterations still
to run.  `last` is the position the iterator `last` points to (`-1` before the first element);
the draw ranges over `0 .. last - cavities.begin() - 1`, converted to `size_t`; `**selected`
and `iter_swap` read the pointer vector at the drawn position and at `last`. -/
def fillCavities (R : RandomEngine) (d : TaskDefinition) :
    Nat → List Nat → Int → R.State → List Object → Outcome (List Nat × R.State × List Object)
  | 0, cavities, _, rand, objects => .ok (cavities, rand, objects)
  | i + 1, cavities, last, rand, objects =>
    let draw := R.uniform 0 (toSize (last - 1)) rand
    match cavities[draw.1]? with
    | none => .undefined
    | some target =>
      if 0 ≤ last ∧ last.toNat < cavities.length then
        fillCavities R d i (iterSwap cavities draw.1 last.toNat) (last - 1) draw.2
          (place d objects target)
      else .undefined

/-- The loop `for ( size_t i = 0; i < def[ "container_placing" ]; i++)` of `generate`, for the
iterations still to run: one draw of `rand(0, containers.size()-1)` each, and `place` on
`*containers[ rand(mRand) ]`. -/
def fillContainers (R : RandomEngine) (d : TaskDefinition) (containers : List Nat) :
    Nat → R.State → List Object → Outcome (R.State × List Object)
  | 0, rand, objects => .ok (rand, objects)
  | i + 1, rand, objects =>
    let draw := R.uniform 0 (sizeSub containers.length 1) rand
    match containers[draw.1]? with
    | none => .undefined
    | some target => fillContainers R d containers i draw.2 (place d objects target)

/-- The message of the cavity-count check of `generate`. -/
def notEnoughCavities (generated : Nat) (pp : Int) : Str :=
  "Not enough cavities generated! Generated ".toList ++ (toString generated).toList ++
    ", min Necessary: ".toList ++ (toString pp).toList ++ "!".toList

/-- The message of the container-count check of `generate`. -/
def notEnoughContainers (generated : Nat) : Str :=
  "Not enough containers generated! Generated ".toList ++ (toString generated).toList ++
    ", min Necessary: 1!".toList

/-- The body of `TaskGeneratorImpl::generate` up to its `return` statement: the state reached
there, holding the vector `objects` built by the call and the engine. -/
def generateObjects (R : RandomEngine) (g : TaskGeneratorImpl R) (taskName : Str) :
    Outcome (GenState R) :=
  let d := taskDef g.mTasks taskName
  match extractObjectTypes g.mTasks taskName with
  | .ok availableObjects =>
    let availableCavities := g.mAvailableCavities
    match sanityCheckTask g.mTasks g.mTables taskName availableObjects with
    | .ok _ =>
      let seeded := match d.find "seed" with
        | some v => R.seed v
        | none => g.mRand
      let st0 : GenState R := { rand := seeded, globalID := 0, objects := [], capacity := 0 }
      match generateCavities R g.mTables availableCavities st0 with
      | .ok (cavities, st1) =>
        if cavities.length < toSize (d.opt "pp") then
          .thrown .InsufficientCavities (notEnoughCavities cavities.length (d.opt "pp"))
        else
          match fillCavities R d (toSize (d.opt "pp")) cavities ((cavities.length : Int) - 1)
              st1.rand st1.objects with
          | .ok (_, rand2, objects2) =>
            match generateContainers R g.mTables d availableObjects
                { st1 with rand := rand2, objects := objects2 } with
            | .ok (containers, st3) =>
              if containers.length < 1 ∧ d.opt "container_placing" ≠ 0 then
                .thrown .InsufficientContainers (notEnoughContainers containers.length)
              else
                match fillContainers R d containers (toSize (d.opt "container_placing"))
                    st3.rand st3.objects with
                | .ok (rand4, objects4) => .ok { st3 with rand := rand4, objects := objects4 }
                | .thrown k w => .thrown k w
                | .undefined => .undefined
            | .thrown k w => .thrown k w
            | .undefined => .undefined
          | .thrown k w => .thrown k w
          | .undefined => .undefined
      | .thrown k w => .thrown k w
      | .undefined => .undefined
    | .thrown k w => .thrown k w
    | .undefined => .undefined
  | .thrown k w => .thrown k w
  | .undefined => .undefined

/-- Function `TaskGeneratorImpl::generate`: runs the body and ends in `return Task();`.  The
generator afterwards holds the advanced engine. -/
def generate (R : RandomEngine) (g : TaskGeneratorImpl R) (taskName : Str) :
    Outcome (Task × TaskGeneratorImpl R) :=
  match generateObjects R g taskName with
  | .ok st => .ok (({} : Task), { g with mRand := st.rand })
  | .thrown k w => .thrown k w
  | .undefined => .undefined

/-- The message built by `operator()` for a task that is not configured. -/
def unknownTaskMessage (taskName : Str) (mTasks : TaskDefinitions) : Str :=
  "No Task ".toList ++ taskName ++ " configured. Valid tasks are: ".toList ++
    mTasks.flatMap (fun item => item.1 ++ " ".toList)

/-- Function `TaskGeneratorImpl::operator()`. -/
def operatorCall (R : RandomEngine) (g : TaskGeneratorImpl R) (taskName : Str) :
    Outcome (Task × TaskGeneratorImpl R) :=
  match g.mTasks.find? (fun item => item.1 = taskName) with
  | none => .thrown .UnknownTask (unknownTaskMessage taskName g.mTasks)
  | some task => generate R g task.1

/-- The constructor `TaskGeneratorImpl(arena, tasks)`: the member initialisers (`mTasks`,
`mAvailableCavities`), the loop filling `mTables`, and `sanityCheck()`. -/
def TaskGeneratorImpl.create (R : RandomEngine) (arena : ArenaDescription)
    (tasks : TaskDefinitions) : Outcome (TaskGeneratorImpl R) :=
  match extractCavities arena with
  | .ok cavities =>
    let mTables := arena.workstations.map (fun w => ({ name := w.1, type := w.2 } : Table))
    match sanityCheck tasks mTables with
    | .ok _ =>
      .ok { mRand := R.init, mTasks := tasks, mTables := mTables, mAvailableCavities := cavities }
    | .thrown k w => .thrown k w
    | .undefined => .undefined
  | .thrown k w => .thrown k w
  | .undefined => .undefined

/-- An engine to run the embedding on concrete inputs: the state and stepping of `minstd_rand0`,
a draw that reduces the state to the requested range, a shuffle that rotates the sequence. -/
def sampleEngine : RandomEngine where
  State := Nat
  init := 1
  seed := fun v => if toSize v % 2147483647 = 0 then 1 else toSize v % 2147483647
  uniform := fun a b s => (a + s % (b - a + 1), (16807 * s) % 2147483647)
  shuffle := fun l s => (l.rotate (s % 7), (16807 * s) % 2147483647)
  uniform_range := by
    intro a b s h
    refine ⟨Nat.le_add_right _ _, ?_⟩
    have : s % (b - a + 1) < b - a + 1 := Nat.mod_lt _ (Nat.succ_pos _)
    show a + s % (b - a + 1) ≤ b
    omega
  shuffle_perm := fun l s => List.rotate_perm l (s % 7)

/-! Helper definitions for the statements: id sequences and sample inputs. -/

/-- The value of the id counter after `n` further draws, starting from `globalID`. -/
def counterAfter : Nat → Nat → Nat
  | globalID, 0 => globalID
  | globalID, n + 1 => counterAfter (nextID globalID).2 n

/-- The ids handed out by `n` successive draws from the counter, starting at `globalID`. -/
def idsFrom : Nat → Nat → List Nat
  | _, 0 => []
  | globalID, n + 1 => (nextID globalID).1 :: idsFrom (nextID globalID).2 n

/-- A small arena: one precision-placement table, one table of height 10, one cavity type. -/
def sampleArena : ArenaDescription :=
  { workstations := [("WS01".toList, "PP".toList), ("WS02".toList, "10".toList)],
    cavities := [("F20_20_H".toList, 1)] }

/-- A task set with the single task `BTT1`: one coloured object, two red containers, a seed. -/
def sampleTasks : TaskDefinitions :=
  [("BTT1".toList, [("object_count".toList, 1), ("F20_20_B".toList, 1),
    ("CONTAINER_RED".toList, 2), ("seed".toList, 42)])]

/-- The generator the constructor builds from `sampleArena` and `sampleTasks`. -/
def sampleGenerator : TaskGeneratorImpl sampleEngine :=
  { mRand := sampleEngine.init
    mTasks := sampleTasks
    mTables := [{ name := "WS01".toList, type := "PP".toList },
      { name := "WS02".toList, type := "10".toList }]
    mAvailableCavities :=
      [{ type := .CAVITY, form := "F20_20".toList, color := "DEFAULT".toList,
         orientation := .HORIZONTAL, count := 1 }] }

/-- A registry without any table of type `00`, `05`, `10` or `15`: one precision-placement table
and one shelf. -/
def shelfTables : List Table :=
  [{ name := "WS01".toList, type := "PP".toList }, { name := "WS02".toList, type := "SH".toList }]

/-- A generator over `shelfTables` whose single task `BTT3` asks for one red container. -/
def shelfGenerator : TaskGeneratorImpl sampleEngine :=
  { mRand := sampleEngine.init
    mTasks := [("BTT3".toList, [("object_count".toList, 1), ("CONTAINER_RED".toList, 1)])]
    mTables := shelfTables
    mAvailableCavities := [] }

/-! Further definitions for the statements: text output, the trace of the placement loop,
a replaying engine and further sample inputs. -/

/-- The stream operator `operator<<(ostream&, Orientation)`: the text written. -/
def formatOrientation (o : Orientation) : Str :=
  match o with
  | .VERTICAL => "V".toList
  | .HORIZONTAL => "H".toList
  | .FREE => "FREE".toList

/-- The stream operator `operator<<(ostream&, const ObjectBase&)`: the text written. -/
def formatObjectBase (type : ObjectBase) : Str :=
  match type.type with
  | .CAVITY => type.form ++ "_".toList ++ formatOrientation type.orientation
  | .CONTAINER => "CONTAINER_".toList ++ type.color
  | .COLORED_OBJECT => type.form ++ "_".toList ++ type.color
  | .OBJECT => type.form
  | .UNKNOWN => "UNKNOWN OBJECT TYPE".toList

/-- The objects `**selected` handed to `place` by the loop
`for ( size_t i = 0; i < def[ "pp" ]; i++ )` of `generate`, in the order of the calls: the loop
of `fillCavities`, recording the argument of every `place` call. -/
def placedCavities (R : RandomEngine) :
    Nat → List Nat → Int → R.State → Outcome (List Nat)
  | 0, _, _, _ => .ok []
  | i + 1, cavities, last, rand =>
    let draw := R.uniform 0 (toSize (last - 1)) rand
    match cavities[draw.1]? with
    | none => .undefined
    | some target =>
      if 0 ≤ last ∧ last.toNat < cavities.length then
        match placedCavities R i (iterSwap cavities draw.1 last.toNat) (last - 1) draw.2 with
        | .ok rest => .ok (target :: rest)
        | .thrown k w => .thrown k w
        | .undefined => .undefined
      else .undefined

/-- An engine that replays a prescribed sequence of draws: the state is the list of values still
to come, a draw over `a .. b` reduces the next value into that range, a shuffle leaves the
sequence as it is. -/
def scriptedEngine : RandomEngine where
  State := List Nat
  init := []
  seed := fun _ => []
  uniform := fun a b s => (a + s.headD 0 % (b - a + 1), s.tail)
  shuffle := fun l s => (l, s)
  uniform_range := by
    intro a b s h
    refine ⟨Nat.le_add_right _ _, ?_⟩
    have : s.headD 0 % (b - a + 1) < b - a + 1 := Nat.mod_lt _ (Nat.succ_pos _)
    show a + s.headD 0 % (b - a + 1) ≤ b
    omega
  shuffle_perm := fun l _ => List.Perm.refl l

/-- A generator with one precision-placement table and a single cavity type of which five are
available: the task `BTT4` asks for no precision placement. -/
def fiveCavityGenerator : TaskGeneratorImpl sampleEngine :=
  { mRand := sampleEngine.init
    mTasks := [("BTT4".toList, [("object_count".toList, 1), ("F20_20_B".toList, 1)])]
    mTables := [{ name := "WS01".toList, type := "PP".toList },
      { name := "WS02".toList, type := "10".toList }]
    mAvailableCavities :=
      [{ type := .CAVITY, form := "F20_20".toList, color := "DEFAULT".toList,
         orientation := .HORIZONTAL, count := 5 }] }

/-- A generator with one precision-placement table and one cavity, whose task `BTT5` asks for one
precision placement. -/
def onePlacementGenerator : TaskGeneratorImpl sampleEngine :=
  { mRand := sampleEngine.init
    mTasks := [("BTT5".toList, [("object_count".toList, 1), ("F20_20_B".toList, 1),
      ("pp".toList, 1)])]
    mTables := [{ name := "WS01".toList, type := "PP".toList },
      { name := "WS02".toList, type := "10".toList }]
    mAvailableCavities :=
      [{ type := .CAVITY, form := "F20_20".toList, color := "DEFAULT".toList,
         orientation := .HORIZONTAL, count := 1 }] }

/-- A generator on the replaying engine with one precision-placement table and two cavities,
whose task `BTT6` asks for two precision placements; the draws to come are 0, 0, 0 and 1. -/
def twoPlacementGenerator : TaskGeneratorImpl scriptedEngine :=
  { mRand := [0, 0, 0, 1]
    mTasks := [("BTT6".toList, [("object_count".toList, 1), ("F20_20_B".toList, 1),
      ("pp".toList, 2)])]
    mTables := [{ name := "WS01".toList, type := "PP".toList },
      { name := "WS02".toList, type := "10".toList }]
    mAvailableCavities :=
      [{ type := .CAVITY, form := "F20_20".toList, color := "DEFAULT".toList,
         orientation := .HORIZONTAL, count := 1 },
       { type := .CAVITY, form := "F20_20".toList, color := "DEFAULT".toList,
         orientation := .VERTICAL, count := 1 }] }

/-- A registry with one table of height 10 and one shelf. -/
def heightAndShelfTables : List Table :=
  [{ name := "WS01".toList, type := "10".toList }, { name := "WS02".toList, type := "SH".toList }]

/-- A generator with one precision-placement table and three cavity types of which two each are
available. -/
def threeTypeGenerator : TaskGeneratorImpl sampleEngine :=
  { mRand := sampleEngine.init
    mTasks := [("BTT7".toList, [("object_count".toList, 1), ("F20_20_B".toList, 1)])]
    mTables := [{ name := "WS01".toList, type := "PP".toList },
      { name := "WS02".toList, type := "10".toList }]
    mAvailableCavities :=
      [{ type := .CAVITY, form := "F20_20".toList, color := "DEFAULT".toList,
         orientation := .HORIZONTAL, count := 2 },
       { type := .CAVITY, form := "F20_20".toList, color := "DEFAULT".toList,
         orientation := .VERTICAL, count := 2 },
       { type := .CAVITY, form := "M20".toList, color := "DEFAULT".toList,
         orientation := .HORIZONTAL, count := 2 }] }

/-- An arena with one precision-placement table and five cavities of a single type. -/
def fiveCavityArena : ArenaDescription :=
  { workstations := [("WS01".toList, "PP".toList), ("WS02".toList, "10".toList)],
    cavities := [("F20_20_H".toList, 5)] }

/-- The state `generate` hands to `generateCavities`: the engine, re-seeded if the task defines
`seed`, the id counter reset to zero, and the empty vector `objects`. -/
def startState (R : RandomEngine) (g : TaskGeneratorImpl R) (taskName : Str) : GenState R :=
  { rand := match (taskDef g.mTasks taskName).find "seed" with
      | some v => R.seed v
      | none => g.mRand
    globalID := 0
    objects := []
    capacity := 0 }

/-! Type codec -/

theorem sizeSub_of_le {a b : Nat} (h : b ≤ a) : sizeSub a b = a - b := by
  simp [sizeSub, h]

theorem charAt_of_getElem? {s : Str} {i : Nat} {c : Char} (h : s[i]? = some c) :
    charAt s i = .ok c := by
  simp [charAt, h]

theorem length_ge_of_isPrefixOf {p l : Str} (h : p.isPrefixOf l = true) : p.length ≤ l.length := by
  have := List.isPrefixOf_iff_prefix.mp h
  exact this.length_le

theorem matchesContainerRegex_iff (code : Str) :
    matchesContainerRegex code = true ↔
      ("CONTAINER_".toList.isPrefixOf code = true ∧ ∀ c ∈ code.drop 10, c ≠ '\n' ∧ c ≠ '\r') := by
  simp [matchesContainerRegex, List.all_eq_true]

theorem substrFrom_container {code : Str} (h : matchesContainerRegex code = true) :
    substrFrom code "CONTAINER_".length = .ok (code.drop 10) := by
  have hlen : 10 ≤ code.length := by
    have := length_ge_of_isPrefixOf ((matchesContainerRegex_iff code).mp h).1
    simpa using this
  have h10 : "CONTAINER_".length = 10 := by decide
  simp [substrFrom, h10]
  omega

/-- The constructor of `ObjectBase` on a code of at least two characters: no read leaves the
string, no `substr` throws, and the members are those of `lineSafeClassify`. -/
theorem fromTypeName_eq_lineSafeClassify (code : Str) (h : 2 ≤ code.length) :
    ObjectBase.fromTypeName code = .ok (lineSafeClassify code) := by
  obtain ⟨a, ha⟩ : ∃ a, code[code.length - 2]? = some a :=
    ⟨code[code.length - 2], List.getElem?_eq_getElem (by omega)⟩
  obtain ⟨b, hb⟩ : ∃ b, code[code.length - 1]? = some b :=
    ⟨code[code.length - 1], List.getElem?_eq_getElem (by omega)⟩
  have h1 : 1 ≤ code.length := by omega
  have hca := charAt_of_getElem? ha
  have hcb := charAt_of_getElem? hb
  have hreg := matchesContainerRegex_iff code
  have hsub : substr code 0 (code.length - 2) = .ok (code.take (code.length - 2)) := by
    simp [substr]
  have hfrom : substrFrom code (code.length - 1) = .ok (code.drop (code.length - 1)) := by
    simp [substrFrom]
  simp only [ObjectBase.fromTypeName, ObjectBase.extractType, ObjectBase.extractForm,
    ObjectBase.extractColor, ObjectBase.extractOrientation, lineSafeClassify,
    sizeSub_of_le h, sizeSub_of_le h1, hca, hcb, ha, hb, bind, Outcome.bind, pure]
  generalize hD : "DEFAULT".toList = D
  by_cases hc : matchesContainerRegex code = true
  · have hcol := substrFrom_container hc
    have hc2 := hreg.mp hc
    rw [if_pos hc2]
    simp only [hc, hcol, hsub, hfrom, if_true]
    clear hreg hc2 hc hcol hsub hfrom hca hcb ha hb
    by_cases hu : a = '_' <;> by_cases hH : b = 'H' <;> by_cases hV : b = 'V' <;>
      by_cases hG : b = 'G' <;> by_cases hB : b = 'B' <;>
      simp [hu, hH, hV, hG, hB]
  · have hc2 : ¬ ("CONTAINER_".toList.isPrefixOf code = true ∧
        ∀ c ∈ code.drop 10, c ≠ '\n' ∧ c ≠ '\r') := fun hh => hc (hreg.mpr hh)
    rw [if_neg hc2]
    simp only [hc, hsub, hfrom]
    clear hreg hc2 hc hsub hfrom hca hcb ha hb
    by_cases hu : a = '_' <;> by_cases hH : b = 'H' <;> by_cases hV : b = 'V' <;>
      by_cases hG : b = 'G' <;> by_cases hB : b = 'B' <;>
      simp [hu, hH, hV, hG, hB]

theorem sizeSub_zero_two : sizeSub 0 2 = 18446744073709551614 := by
  norm_num [sizeSub]

theorem sizeSub_one_two : sizeSub 1 2 = 18446744073709551615 := by
  norm_num [sizeSub]

theorem charAt_beyond {s : Str} {i : Nat} (h : s.length < i) : charAt s i = .undefined := by
  have hnone : s[i]? = none := List.getElem?_eq_none (Nat.le_of_lt h)
  have hne : i ≠ s.length := Nat.ne_of_gt h
  simp [charAt, hnone, hne]

/-- On a code of fewer than two characters `len - 2` wraps around and the read of `preLast` is
outside the string. -/
theorem extractType_short (code : Str) (h : code.length < 2) :
    code.length < sizeSub code.length 2 ∧ ObjectBase.extractType code = .undefined
      ∧ ObjectBase.fromTypeName code = .undefined := by
  have hlt : code.length < sizeSub code.length 2 := by
    have h01 : code.length = 0 ∨ code.length = 1 := by omega
    rcases h01 with h0 | h0 <;> rw [h0]
    · rw [sizeSub_zero_two]; norm_num
    · rw [sizeSub_one_two]; norm_num
  have hty : ObjectBase.extractType code = .undefined := by
    simp [ObjectBase.extractType, charAt_beyond hlt, bind, Outcome.bind]
  refine ⟨hlt, hty, ?_⟩
  simp [ObjectBase.fromTypeName, hty, bind, Outcome.bind]

theorem lineSafeClassify_type_ne_unknown (code : Str) :
    (lineSafeClassify code).type ≠ .UNKNOWN := by
  unfold lineSafeClassify
  simp only []
  split_ifs <;> simp

theorem lineSafeClassify_eq_spec (code : Str)
    (h : ∀ c ∈ code.drop 10, c ≠ '\n' ∧ c ≠ '\r') :
    lineSafeClassify code = specClassify code := by
  have hiff : ("CONTAINER_".toList.isPrefixOf code = true
      ∧ ∀ c ∈ code.drop 10, c ≠ '\n' ∧ c ≠ '\r')
      ↔ "CONTAINER_".toList.isPrefixOf code = true := and_iff_left h
  unfold lineSafeClassify specClassify
  simp only [hiff]

theorem specClassify_type_ne_unknown (code : Str) : (specClassify code).type ≠ .UNKNOWN := by
  unfold specClassify
  simp only []
  split_ifs <;> simp

/-- A string over `A-Z`, `0-9` and `_` holds neither a line feed nor a carriage return. -/
theorem no_line_break_of_matchesObjectRegex (code : Str) (h : matchesObjectRegex code = true) :
    ∀ c ∈ code, c ≠ '\n' ∧ c ≠ '\r' := by
  intro c hc
  have hall : code.all
      (fun c => ('A' ≤ c && c ≤ 'Z') || ('0' ≤ c && c ≤ '9') || c == '_') = true := by
    simp only [matchesObjectRegex, Bool.and_eq_true] at h
    exact h.2
  have hcond := List.all_eq_true.mp hall c hc
  constructor
  · rintro rfl
    exact absurd hcond (by decide)
  · rintro rfl
    exact absurd hcond (by decide)

/-- On a string of at least two characters without a line feed or carriage return after its
tenth character, the constructor of `ObjectBase` returns the classification as section 3 of the
specification words it. -/
theorem fromTypeName_eq_specClassify (code : Str) (h : 2 ≤ code.length)
    (hline : ∀ c ∈ code.drop 10, c ≠ '\n' ∧ c ≠ '\r') :
    ObjectBase.fromTypeName code = .ok (specClassify code) := by
  rw [fromTypeName_eq_lineSafeClassify code h, lineSafeClassify_eq_spec code hline]

/-- C1: for every type code (a string over `A-Z`, `0-9` and `_`, the pattern the source applies
to the keys it takes for type codes) of length at least 2, the constructor of `ObjectBase`
returns normally with exactly the classification of section 3 of the specification: Cavity for
`_H` / `_V`, else ColoredObject for `_G` / `_B`, else Container if the code starts with
`CONTAINER_`, else PlainObject, never Unknown, with form, color and orientation as stated there;
and the three codes named by the specification classify as stated. -/
theorem fromTypeName_specClassify (code : Str) (h : 2 ≤ code.length)
    (hcode : matchesObjectRegex code = true) :
    ObjectBase.fromTypeName code = .ok (specClassify code)
    ∧ (specClassify code).type ≠ .UNKNOWN
    ∧ ObjectBase.fromTypeName "F20_20_B".toList
        = .ok ⟨.COLORED_OBJECT, "F20_20".toList, "B".toList, .FREE⟩
    ∧ ObjectBase.fromTypeName "CONTAINER_RED".toList
        = .ok ⟨.CONTAINER, "DEFAULT".toList, "RED".toList, .FREE⟩
    ∧ ObjectBase.fromTypeName "S40_40_H".toList
        = .ok ⟨.CAVITY, "S40_40".toList, "DEFAULT".toList, .HORIZONTAL⟩ :=
  ⟨fromTypeName_eq_specClassify code h
      (fun c hc => no_line_break_of_matchesObjectRegex code hcode c (List.mem_of_mem_drop hc)),
    specClassify_type_ne_unknown code, by decide, by decide, by decide⟩

/-- Witness for `fromTypeName_specClassify`: the type code `F20_20_V`. -/
theorem fromTypeName_specClassify_witness :
    2 ≤ "F20_20_V".toList.length
    ∧ matchesObjectRegex "F20_20_V".toList = true
    ∧ ObjectBase.fromTypeName "F20_20_V".toList = .ok (specClassify "F20_20_V".toList)
    ∧ specClassify "F20_20_V".toList
        = ⟨.CAVITY, "F20_20".toList, "DEFAULT".toList, .VERTICAL⟩ :=
  ⟨by decide, by decide,
    (fromTypeName_specClassify "F20_20_V".toList (by decide) (by decide)).1, by decide⟩

/-- Outside the type codes: the pattern `CONTAINER_.*` does not match across a line terminator,
so a string that starts with `CONTAINER_` and goes on with a line feed is taken for a plain
object by the constructor. -/
theorem container_code_with_line_feed :
    matchesObjectRegex "CONTAINER_\nX".toList = false
    ∧ ObjectBase.fromTypeName "CONTAINER_\nX".toList
        = .ok ⟨.OBJECT, "CONTAINER_\nX".toList, "DEFAULT".toList, .FREE⟩ := by
  decide

/-- C2: for a type code that is empty or has one character, `extractType` computes the position
`len - 2` in `size_t`, which wraps around to a position beyond the end of the string; the read
there is outside the string, so the classification has no defined result, and no error is
thrown. -/
theorem extractType_short_code (code : Str) (h : code.length < 2) :
    code.length < sizeSub code.length 2
    ∧ ObjectBase.extractType code = .undefined
    ∧ ObjectBase.fromTypeName code = .undefined
    ∧ ∀ k w, ObjectBase.fromTypeName code ≠ .thrown k w := by
  obtain ⟨h1, h2, h3⟩ := extractType_short code h
  exact ⟨h1, h2, h3, fun k w => by rw [h3]; simp⟩

/-- Witness for `extractType_short_code`: the one-character code `A`. -/
theorem extractType_short_code_witness :
    "A".toList.length < 2
    ∧ sizeSub "A".toList.length 2 = 18446744073709551615
    ∧ ObjectBase.fromTypeName "A".toList = .undefined :=
  ⟨by decide, sizeSub_one_two, (extractType_short_code "A".toList (by decide)).2.2.1⟩

/-! Feasibility checks -/

theorem emplaceAll_ok (items : List (Str × Nat)) (h : ∀ item ∈ items, 2 ≤ item.1.length) :
    ∃ ts, emplaceAll items = .ok ts := by
  induction items with
  | nil => exact ⟨[], rfl⟩
  | cons item rest ih =>
    obtain ⟨ts, hts⟩ := ih (fun i hi => h i (List.mem_cons_of_mem _ hi))
    have hb := fromTypeName_eq_lineSafeClassify item.1 (h item (List.mem_cons_self _ _))
    exact ⟨{ toObjectBase := lineSafeClassify item.1, count := item.2 } :: ts, by
      simp [emplaceAll, ObjectType.fromTypeName, hb, hts, bind, Outcome.bind, pure]⟩

theorem extractCavities_ok (arena : ArenaDescription)
    (h : ∀ item ∈ arena.cavities, item.2 ≠ 0 → 2 ≤ item.1.length) :
    ∃ ts, extractCavities arena = .ok ts := by
  apply emplaceAll_ok
  intro item hitem
  simp only [List.mem_map, List.mem_filter] at hitem
  obtain ⟨src, ⟨hmem, hnz⟩, rfl⟩ := hitem
  exact h src hmem (by simpa using hnz)

/-- The condition under which `sanityCheck()` throws. -/
theorem sanityCheck_thrown_iff (mTasks : TaskDefinitions) (mTables : List Table) :
    (∃ w, sanityCheck mTasks mTables = .thrown .InfeasibleConfiguration w) ↔
      (mTables.length < 2 ∨ mTasks = [] ∨
        ∃ task ∈ mTasks, task.2.opt "object_count" = 0 ∧ task.2.opt "waypoint_count" = 0) := by
  unfold sanityCheck
  by_cases h2 : mTables.length < 2
  · simp [h2]
  · by_cases he : mTasks = []
    · simp [h2, he]
    · simp only [h2, he, if_false, false_or]
      cases hf : mTasks.find? (fun task =>
          decide (task.2.opt "object_count" = 0 ∧ task.2.opt "waypoint_count" = 0)) with
      | none =>
        constructor
        · rintro ⟨_, hw⟩; exact absurd hw (by simp)
        · rintro ⟨task, hmem, hz⟩
          have := List.find?_eq_none.mp hf task hmem
          simp [hz] at this
      | some task =>
        have hmem := List.mem_of_find?_eq_some hf
        have hz := List.find?_some hf
        simp only [decide_eq_true_eq] at hz
        constructor
        · intro _; exact ⟨task, hmem, hz⟩
        · intro _; exact ⟨_, rfl⟩

theorem sanityCheck_ok_or_thrown (mTasks : TaskDefinitions) (mTables : List Table) :
    sanityCheck mTasks mTables = .ok () ∨
      ∃ w, sanityCheck mTasks mTables = .thrown .InfeasibleConfiguration w := by
  unfold sanityCheck
  split_ifs
  · exact Or.inr ⟨_, rfl⟩
  · exact Or.inr ⟨_, rfl⟩
  · split
    · exact Or.inr ⟨_, rfl⟩
    · exact Or.inl rfl

/-- C3: for an arena whose cavity codes (those with a non-zero count) have at least two
characters, the constructor throws exactly when the arena has fewer than two workstations, or the
task set is empty, or some task reads `0` for both `object_count` and `waypoint_count` (an absent
option reads as `0`); in every other case it returns a generator; an arena with exactly one table
is rejected with the two-tables message. -/
theorem create_fails_iff (R : RandomEngine) (arena : ArenaDescription) (tasks : TaskDefinitions)
    (hcodes : ∀ item ∈ arena.cavities, item.2 ≠ 0 → 2 ≤ item.1.length) :
    ((∃ w, TaskGeneratorImpl.create R arena tasks = .thrown .InfeasibleConfiguration w) ↔
      (arena.workstations.length < 2 ∨ tasks = [] ∨
        ∃ task ∈ tasks, task.2.opt "object_count" = 0 ∧ task.2.opt "waypoint_count" = 0))
    ∧ ((∃ g, TaskGeneratorImpl.create R arena tasks = .ok g) ↔
      ¬ (arena.workstations.length < 2 ∨ tasks = [] ∨
        ∃ task ∈ tasks, task.2.opt "object_count" = 0 ∧ task.2.opt "waypoint_count" = 0))
    ∧ (arena.workstations.length = 1 →
      TaskGeneratorImpl.create R arena tasks =
        .thrown .InfeasibleConfiguration
          "At least two tables need to exist in the arena!".toList) := by
  obtain ⟨cav, hcav⟩ := extractCavities_ok arena hcodes
  have hiff := sanityCheck_thrown_iff tasks
    (arena.workstations.map (fun w => ({ name := w.1, type := w.2 } : Table)))
  rw [List.length_map] at hiff
  have hcases := sanityCheck_ok_or_thrown tasks
    (arena.workstations.map (fun w => ({ name := w.1, type := w.2 } : Table)))
  refine ⟨?_, ?_, ?_⟩
  · rw [← hiff]
    rcases hcases with hok | ⟨w, hw⟩
    · simp [TaskGeneratorImpl.create, hcav, hok]
    · simp [TaskGeneratorImpl.create, hcav, hw]
  · rw [← hiff]
    rcases hcases with hok | ⟨w, hw⟩
    · simp [TaskGeneratorImpl.create, hcav, hok]
    · simp [TaskGeneratorImpl.create, hcav, hw]
  · intro h1
    simp [TaskGeneratorImpl.create, hcav, sanityCheck, h1]

/-- Witness for `create_fails_iff`: the sample arena and task set satisfy the hypothesis and
none of the three conditions, and the constructor returns a generator. -/
theorem create_fails_iff_witness :
    (∀ item ∈ sampleArena.cavities, item.2 ≠ 0 → 2 ≤ item.1.length)
    ∧ ∃ g, TaskGeneratorImpl.create sampleEngine sampleArena sampleTasks = .ok g :=
  ⟨by decide,
    ((create_fails_iff sampleEngine sampleArena sampleTasks (by decide)).2.1).mpr (by decide)⟩

theorem countTables_eq_zero_iff (mTables : List Table) (type : String) :
    countTables mTables type = 0 ↔ ¬ ∃ t ∈ mTables, t.type = type.toList := by
  simp [countTables, List.filter_eq_nil_iff]

theorem toSize_of_nonneg {v : Int} (h : 0 ≤ v) (n : Nat) : n < toSize v ↔ (n : Int) < v := by
  simp only [toSize, h, if_true]
  omega

theorem check_step_iff (p : Prop) [Decidable p] (m : Str) (r : Outcome Unit) :
    (∃ w, (if p then Outcome.thrown ErrorKind.InfeasibleConfiguration m else r)
        = Outcome.thrown ErrorKind.InfeasibleConfiguration w) ↔
      (p ∨ ∃ w, r = Outcome.thrown ErrorKind.InfeasibleConfiguration w) := by
  by_cases hp : p
  · simp [hp]
  · simp [hp]

theorem check_step_total (p : Prop) [Decidable p] (m : Str) (r : Outcome Unit)
    (hr : r = .ok () ∨ ∃ w, r = .thrown .InfeasibleConfiguration w) :
    (if p then Outcome.thrown ErrorKind.InfeasibleConfiguration m else r) = .ok () ∨
      ∃ w, (if p then Outcome.thrown ErrorKind.InfeasibleConfiguration m else r)
        = .thrown .InfeasibleConfiguration w := by
  by_cases hp : p
  · exact Or.inr ⟨m, by simp [hp]⟩
  · simpa [hp] using hr

/-- The task-level check either returns or throws from one of its own throw sites. -/
theorem sanityCheckTask_total (mTasks : TaskDefinitions) (mTables : List Table) (task : Str)
    (availableObjects : List ObjectType) :
    sanityCheckTask mTasks mTables task availableObjects = .ok () ∨
      ∃ w, sanityCheckTask mTasks mTables task availableObjects
        = .thrown .InfeasibleConfiguration w := by
  unfold sanityCheckTask infeasible
  repeat apply check_step_total
  exact Or.inl rfl

/-- C4: the task-level check throws exactly when one of the listed conditions holds (an absent
option reads as `0`): `object_count >= 0` with an empty available-object list; `waypoint_count
>= 0` with fewer registered tables than `waypoint_count`; `shelf_grasping` or `shelf_picking`
non-zero without a table of type `SH`; `rt_grasping` or `rt_picking` non-zero without a table of
type `TT`; `pp` non-zero without a table of type `PP`; `table_height_0/5/10/15` non-zero without a
table of type `00/05/10/15`.  Otherwise it returns normally.  In particular `shelf_grasping`
against an arena without an `SH` table is rejected. -/
theorem sanityCheckTask_rejects_iff (mTasks : TaskDefinitions) (mTables : List Table) (task : Str)
    (availableObjects : List ObjectType) :
    ((∃ w, sanityCheckTask mTasks mTables task availableObjects
        = .thrown .InfeasibleConfiguration w) ↔
      ((0 ≤ (taskDef mTasks task).opt "object_count" ∧ availableObjects = [])
      ∨ (0 ≤ (taskDef mTasks task).opt "waypoint_count"
          ∧ (mTables.length : Int) < (taskDef mTasks task).opt "waypoint_count")
      ∨ (((taskDef mTasks task).opt "shelf_grasping" ≠ 0
            ∨ (taskDef mTasks task).opt "shelf_picking" ≠ 0)
          ∧ ¬ ∃ t ∈ mTables, t.type = "SH".toList)
      ∨ (((taskDef mTasks task).opt "rt_grasping" ≠ 0
            ∨ (taskDef mTasks task).opt "rt_picking" ≠ 0)
          ∧ ¬ ∃ t ∈ mTables, t.type = "TT".toList)
      ∨ ((taskDef mTasks task).opt "pp" ≠ 0 ∧ ¬ ∃ t ∈ mTables, t.type = "PP".toList)
      ∨ ((taskDef mTasks task).opt "table_height_0" ≠ 0
          ∧ ¬ ∃ t ∈ mTables, t.type = "00".toList)
      ∨ ((taskDef mTasks task).opt "table_height_5" ≠ 0
          ∧ ¬ ∃ t ∈ mTables, t.type = "05".toList)
      ∨ ((taskDef mTasks task).opt "table_height_10" ≠ 0
          ∧ ¬ ∃ t ∈ mTables, t.type = "10".toList)
      ∨ ((taskDef mTasks task).opt "table_height_15" ≠ 0
          ∧ ¬ ∃ t ∈ mTables, t.type = "15".toList)))
    ∧ (sanityCheckTask mTasks mTables task availableObjects = .ok () ∨
        ∃ w, sanityCheckTask mTasks mTables task availableObjects
          = .thrown .InfeasibleConfiguration w)
    ∧ (((taskDef mTasks task).opt "shelf_grasping" ≠ 0 ∧ ¬ ∃ t ∈ mTables, t.type = "SH".toList) →
        ∃ w, sanityCheckTask mTasks mTables task availableObjects
          = .thrown .InfeasibleConfiguration w) := by
  have key : (∃ w, sanityCheckTask mTasks mTables task availableObjects
        = .thrown .InfeasibleConfiguration w) ↔
      ((0 ≤ (taskDef mTasks task).opt "object_count" ∧ availableObjects = [])
      ∨ (0 ≤ (taskDef mTasks task).opt "waypoint_count"
          ∧ mTables.length < toSize ((taskDef mTasks task).opt "waypoint_count"))
      ∨ (((taskDef mTasks task).opt "shelf_grasping" ≠ 0
            ∨ (taskDef mTasks task).opt "shelf_picking" ≠ 0)
          ∧ countTables mTables "SH" = 0)
      ∨ (((taskDef mTasks task).opt "rt_grasping" ≠ 0
            ∨ (taskDef mTasks task).opt "rt_picking" ≠ 0)
          ∧ countTables mTables "TT" = 0)
      ∨ ((taskDef mTasks task).opt "pp" ≠ 0 ∧ countTables mTables "PP" = 0)
      ∨ ((taskDef mTasks task).opt "table_height_0" ≠ 0 ∧ countTables mTables "00" = 0)
      ∨ ((taskDef mTasks task).opt "table_height_5" ≠ 0 ∧ countTables mTables "05" = 0)
      ∨ ((taskDef mTasks task).opt "table_height_10" ≠ 0 ∧ countTables mTables "10" = 0)
      ∨ ((taskDef mTasks task).opt "table_height_15" ≠ 0 ∧ countTables mTables "15" = 0)) := by
    unfold sanityCheckTask infeasible
    simp only [check_step_iff, ge_iff_le]
    simp
  have hway : (0 ≤ (taskDef mTasks task).opt "waypoint_count"
          ∧ mTables.length < toSize ((taskDef mTasks task).opt "waypoint_count")) ↔
      (0 ≤ (taskDef mTasks task).opt "waypoint_count"
          ∧ (mTables.length : Int) < (taskDef mTasks task).opt "waypoint_count") := by
    constructor
    · rintro ⟨h0, h1⟩; exact ⟨h0, (toSize_of_nonneg h0 _).mp h1⟩
    · rintro ⟨h0, h1⟩; exact ⟨h0, (toSize_of_nonneg h0 _).mpr h1⟩
  simp only [hway, countTables_eq_zero_iff] at key
  refine ⟨key, ?_, ?_⟩
  · exact sanityCheckTask_total mTasks mTables task availableObjects
  · rintro ⟨hs, hno⟩
    exact key.mpr (Or.inr (Or.inr (Or.inl ⟨Or.inl hs, hno⟩)))

/-- Witness for `sanityCheckTask_rejects_iff`: a task asking for `shelf_grasping` in the sample
arena, which has no table of type `SH`. -/
theorem sanityCheckTask_rejects_iff_witness :
    ∃ w, sanityCheckTask [("BTT2".toList, [("shelf_grasping".toList, 1)])]
        sampleGenerator.mTables "BTT2".toList [⟨⟨.OBJECT, "M20".toList, "DEFAULT".toList, .FREE⟩, 1⟩]
      = .thrown .InfeasibleConfiguration w :=
  (sanityCheckTask_rejects_iff [("BTT2".toList, [("shelf_grasping".toList, 1)])]
    sampleGenerator.mTables "BTT2".toList
    [⟨⟨.OBJECT, "M20".toList, "DEFAULT".toList, .FREE⟩, 1⟩]).2.2 (by decide)

/-! Facade -/

theorem fromTypeName_not_thrown (code : Str) (k : ErrorKind) (w : Str) :
    ObjectBase.fromTypeName code ≠ .thrown k w := by
  by_cases h : 2 ≤ code.length
  · rw [fromTypeName_eq_lineSafeClassify code h]; simp
  · rw [(extractType_short code (by omega)).2.2]; simp

theorem emplaceAll_not_thrown (items : List (Str × Nat)) (k : ErrorKind) (w : Str) :
    emplaceAll items ≠ .thrown k w := by
  induction items generalizing k w with
  | nil => simp [emplaceAll]
  | cons item rest ih =>
    have hb := fromTypeName_not_thrown item.1
    simp only [emplaceAll, ObjectType.fromTypeName, bind, Outcome.bind, pure]
    cases hf : ObjectBase.fromTypeName item.1 with
    | ok b =>
      cases hr : emplaceAll rest with
      | ok ts => simp
      | thrown k2 w2 => exact absurd hr (ih k2 w2)
      | undefined => simp
    | thrown k2 w2 => exact absurd hf (hb k2 w2)
    | undefined => simp

theorem assignCavityTables_not_thrown (R : RandomEngine) (ppTables : List Table) (n : Nat)
    (ps : List Nat) (rand : R.State) (objects : List Object) (k : ErrorKind) (w : Str) :
    assignCavityTables R ppTables n ps rand objects ≠ .thrown k w := by
  induction ps generalizing rand objects with
  | nil => simp [assignCavityTables]
  | cons p ps ih =>
    simp only [assignCavityTables]
    split
    · simp
    · exact ih _ _

theorem generateCavities_not_thrown (R : RandomEngine) (mTables : List Table)
    (availableCavities : List ObjectType) (st : GenState R) (k : ErrorKind) (w : Str) :
    generateCavities R mTables availableCavities st ≠ .thrown k w := by
  unfold generateCavities
  simp only []
  split_ifs
  · split
    · simp
    · rename_i heq; exact absurd heq (assignCavityTables_not_thrown _ _ _ _ _ _ _ _)
    · simp
  · simp

theorem containerUnits_not_thrown (R : RandomEngine) (tables : List Table) (type : ObjectType)
    (i : Nat) (rand : R.State) (globalID : Nat) (k : ErrorKind) (w : Str) :
    containerUnits R tables type i rand globalID ≠ .thrown k w := by
  induction i generalizing rand globalID k w with
  | zero => simp [containerUnits]
  | succ i ih =>
    simp only [containerUnits]
    split
    · simp
    · split
      · simp
      · rename_i heq; exact absurd heq (ih _ _ _ _)
      · simp

theorem containerObjects_not_thrown (R : RandomEngine) (tables : List Table)
    (types : List ObjectType) (rand : R.State) (globalID : Nat) (k : ErrorKind) (w : Str) :
    containerObjects R tables types rand globalID ≠ .thrown k w := by
  induction types generalizing rand globalID k w with
  | nil => simp [containerObjects]
  | cons type rest ih =>
    simp only [containerObjects]
    split_ifs
    · split
      · split
        · simp
        · rename_i heq; exact absurd heq (ih _ _ _ _)
        · simp
      · rename_i heq; exact absurd heq (containerUnits_not_thrown _ _ _ _ _ _ _ _)
      · simp
    · exact ih _ _ _ _

theorem generateContainers_not_thrown (R : RandomEngine) (mTables : List Table)
    (d : TaskDefinition) (availableObjects : List ObjectType) (st : GenState R)
    (k : ErrorKind) (w : Str) :
    generateContainers R mTables d availableObjects st ≠ .thrown k w := by
  unfold generateContainers
  simp only []
  split
  · simp
  · rename_i heq; exact absurd heq (containerObjects_not_thrown _ _ _ _ _ _ _)
  · simp

theorem fillCavities_not_thrown (R : RandomEngine) (d : TaskDefinition) (i : Nat)
    (cavities : List Nat) (last : Int) (rand : R.State) (objects : List Object)
    (k : ErrorKind) (w : Str) :
    fillCavities R d i cavities last rand objects ≠ .thrown k w := by
  induction i generalizing cavities last rand objects with
  | zero => simp [fillCavities]
  | succ i ih =>
    simp only [fillCavities]
    split
    · simp
    · split_ifs
      · exact ih _ _ _ _
      · simp

theorem fillContainers_not_thrown (R : RandomEngine) (d : TaskDefinition) (containers : List Nat)
    (i : Nat) (rand : R.State) (objects : List Object) (k : ErrorKind) (w : Str) :
    fillContainers R d containers i rand objects ≠ .thrown k w := by
  induction i generalizing rand objects with
  | zero => simp [fillContainers]
  | succ i ih =>
    simp only [fillContainers]
    split
    · simp
    · exact ih _ _

/-- No throw site reached from the body of `generate` is the one of `operator()`. -/
theorem generateObjects_not_unknown (R : RandomEngine) (g : TaskGeneratorImpl R) (taskName : Str)
    (w : Str) : generateObjects R g taskName ≠ .thrown .UnknownTask w := by
  unfold generateObjects
  simp only []
  split
  · split
    · split
      · split_ifs
        · simp
        · split
          · split
            · split_ifs
              · simp
              · split
                · simp
                · rename_i heq; exact absurd heq (fillContainers_not_thrown _ _ _ _ _ _ _ _)
                · simp
            · rename_i heq; exact absurd heq (generateContainers_not_thrown _ _ _ _ _ _ _)
            · simp
          · rename_i heq; exact absurd heq (fillCavities_not_thrown _ _ _ _ _ _ _ _ _)
          · simp
      · rename_i heq; exact absurd heq (generateCavities_not_thrown _ _ _ _ _ _)
      · simp
    · rename_i heq
      rcases sanityCheckTask_total g.mTasks g.mTables taskName _ with hok | ⟨w2, hw2⟩
      · rw [hok] at heq; simp at heq
      · rw [hw2] at heq
        intro hcontra
        simp only [Outcome.thrown.injEq] at heq hcontra
        rw [← heq.1] at hcontra
        exact absurd hcontra.1 (by decide)
    · simp
  · rename_i heq; exact absurd heq (emplaceAll_not_thrown _ _ _)
  · simp

theorem infix_flatMap_of_mem_names (tasks : TaskDefinitions) (item : Str × TaskDefinition)
    (h : item ∈ tasks) :
    List.IsInfix item.1 (tasks.flatMap (fun item => item.1 ++ " ".toList)) := by
  induction tasks with
  | nil => cases h
  | cons t rest ih =>
    rw [List.flatMap_cons]
    rcases List.mem_cons.mp h with rfl | hmem
    · exact ⟨[], " ".toList ++ rest.flatMap (fun item => item.1 ++ " ".toList), by simp⟩
    · obtain ⟨a, b, hab⟩ := ih hmem
      exact ⟨t.1 ++ " ".toList ++ a, b, by rw [← hab]; simp [List.append_assoc]⟩

theorem name_infix_unknownTaskMessage (taskName : Str) (tasks : TaskDefinitions)
    (item : Str × TaskDefinition) (h : item ∈ tasks) :
    List.IsInfix item.1 (unknownTaskMessage taskName tasks) := by
  obtain ⟨a, b, hab⟩ := infix_flatMap_of_mem_names tasks item h
  exact ⟨"No Task ".toList ++ taskName ++ " configured. Valid tasks are: ".toList ++ a, b, by
    rw [unknownTaskMessage, ← hab]; simp [List.append_assoc]⟩

theorem generate_not_unknown (R : RandomEngine) (g : TaskGeneratorImpl R) (taskName : Str)
    (w : Str) : generate R g taskName ≠ .thrown .UnknownTask w := by
  unfold generate
  split
  · simp
  · rename_i heq
    intro hc
    simp only [Outcome.thrown.injEq] at hc
    rw [hc.1, hc.2] at heq
    exact generateObjects_not_unknown R g taskName w heq
  · simp

/-- C5: `operator()` throws the unknown-task error exactly when the requested name is not a key
of the configured task set; it then throws the message listing the configured tasks, which
contains the name of every configured task, without calling `generate`; for a configured name
it is the call of `generate`. -/
theorem operatorCall_unknown_iff (R : RandomEngine) (g : TaskGeneratorImpl R) (taskName : Str) :
    ((∃ w, operatorCall R g taskName = .thrown .UnknownTask w) ↔
      ¬ ∃ item ∈ g.mTasks, item.1 = taskName)
    ∧ ((¬ ∃ item ∈ g.mTasks, item.1 = taskName) →
        operatorCall R g taskName = .thrown .UnknownTask (unknownTaskMessage taskName g.mTasks)
        ∧ ∀ item ∈ g.mTasks, List.IsInfix item.1 (unknownTaskMessage taskName g.mTasks))
    ∧ ((∃ item ∈ g.mTasks, item.1 = taskName) →
        operatorCall R g taskName = generate R g taskName) := by
  cases hf : g.mTasks.find? (fun item => decide (item.1 = taskName)) with
  | none =>
    have hno : ¬ ∃ item ∈ g.mTasks, item.1 = taskName := by
      rintro ⟨item, hmem, hname⟩
      have := List.find?_eq_none.mp hf item hmem
      simp [hname] at this
    have hcall : operatorCall R g taskName
        = .thrown .UnknownTask (unknownTaskMessage taskName g.mTasks) := by
      simp [operatorCall, hf]
    refine ⟨⟨fun _ => hno, fun _ => ⟨_, hcall⟩⟩, fun _ => ⟨hcall, ?_⟩, fun h => absurd h hno⟩
    exact fun item hmem => name_infix_unknownTaskMessage taskName g.mTasks item hmem
  | some task =>
    have hmem := List.mem_of_find?_eq_some hf
    have hname : task.1 = taskName := by simpa using List.find?_some hf
    have hyes : ∃ item ∈ g.mTasks, item.1 = taskName := ⟨task, hmem, hname⟩
    have hcall : operatorCall R g taskName = generate R g taskName := by
      simp [operatorCall, hf, hname]
    refine ⟨⟨?_, fun h => absurd hyes h⟩, fun h => absurd hyes h, fun _ => hcall⟩
    rintro ⟨w, hw⟩
    rw [hcall] at hw
    exact absurd hw (generate_not_unknown R g taskName w)

/-- Witness for `operatorCall_unknown_iff`: the sample generator knows only `BTT1`; asked for
`NOPE` it throws the unknown-task error, whose message contains `BTT1`. -/
theorem operatorCall_unknown_iff_witness :
    operatorCall sampleEngine sampleGenerator "NOPE".toList
      = .thrown .UnknownTask "No Task NOPE configured. Valid tasks are: BTT1 ".toList
    ∧ List.IsInfix "BTT1".toList (unknownTaskMessage "NOPE".toList sampleGenerator.mTasks) :=
  ⟨by
    rw [((operatorCall_unknown_iff sampleEngine sampleGenerator "NOPE".toList).2.1
      (by decide)).1]
    rfl,
   ((operatorCall_unknown_iff sampleEngine sampleGenerator "NOPE".toList).2.1
      (by decide)).2 (sampleTasks.head (by decide)) (by decide)⟩

/-! Generation engine -/

theorem counterAfter_add (g a b : Nat) :
    counterAfter g (a + b) = counterAfter (counterAfter g a) b := by
  induction a generalizing g with
  | zero => simp [counterAfter]
  | succ a ih =>
    rw [Nat.succ_add]
    simp only [counterAfter]
    exact ih _

theorem idsFrom_add (g a b : Nat) :
    idsFrom g (a + b) = idsFrom g a ++ idsFrom (counterAfter g a) b := by
  induction a generalizing g with
  | zero => simp [idsFrom, counterAfter]
  | succ a ih =>
    rw [Nat.succ_add]
    simp only [idsFrom, counterAfter, List.cons_append]
    rw [ih]

theorem counterAfter_eq_add (g n : Nat) (h : g + n < 2 ^ 32) : counterAfter g n = g + n := by
  induction n generalizing g with
  | zero => simp [counterAfter]
  | succ n ih =>
    have h1 : (g + 1) % 2 ^ 32 = g + 1 := Nat.mod_eq_of_lt (by omega)
    simp only [counterAfter, nextID, h1]
    rw [ih (g + 1) (by omega)]
    omega

theorem idsFrom_eq_range (g n : Nat) (h : g + n ≤ 2 ^ 32) :
    idsFrom g n = List.range' g n := by
  induction n generalizing g with
  | zero => simp [idsFrom]
  | succ n ih =>
    simp only [idsFrom, nextID, List.range'_succ]
    cases n with
    | zero => simp [idsFrom]
    | succ n =>
      have h1 : (g + 1) % 2 ^ 32 = g + 1 := Nat.mod_eq_of_lt (by omega)
      rw [h1, ih (g + 1) (by omega)]

theorem length_idsFrom (g n : Nat) : (idsFrom g n).length = n := by
  induction n generalizing g with
  | zero => simp [idsFrom]
  | succ n ih => simp [idsFrom, ih]

theorem defaultObjects_spec (n g : Nat) :
    (defaultObjects n g).1.length = n ∧ (defaultObjects n g).2 = counterAfter g n := by
  induction n generalizing g with
  | zero => simp [defaultObjects, counterAfter]
  | succ n ih =>
    obtain ⟨h1, h2⟩ := ih (nextID g).2
    simp only [defaultObjects, List.length_cons, counterAfter, Object.default, h1, h2, and_self]

theorem objectsFromTypes_spec (ts : List ObjectType) (g : Nat) :
    (objectsFromTypes ts g).1.length = ts.length
    ∧ (objectsFromTypes ts g).1.map (fun o => o.id) = idsFrom g ts.length
    ∧ (objectsFromTypes ts g).2 = counterAfter g ts.length
    ∧ (objectsFromTypes ts g).1.map (fun o => o.toObjectBase) = ts.map (fun t => t.toObjectBase) := by
  induction ts generalizing g with
  | nil => simp [objectsFromTypes, counterAfter, idsFrom]
  | cons t ts ih =>
    obtain ⟨h1, h2, h3, h4⟩ := ih (nextID g).2
    simp only [objectsFromTypes, List.length_cons, List.map_cons, counterAfter,
      idsFrom, Object.fromType, h1, h2, h3, h4, and_self]

theorem map_modify_of_preserved {β : Type} (key : Object → β) (f : Object → Object)
    (hf : ∀ o, key (f o) = key o) (l : List Object) (p : Nat) :
    (l.modify f p).map key = l.map key := by
  induction l generalizing p with
  | nil => simp
  | cons o l ih =>
    cases p with
    | zero => simp [hf]
    | succ p => simp [ih]

/-- The effect of `resize` on the vector, the counter and the engine. -/
theorem resizeObjects_spec {R : RandomEngine} (st : GenState R) (n : Nat) :
    ∃ old, (resizeObjects st n).objects = old ++ (defaultObjects n st.globalID).1
      ∧ (old = st.objects ∨ old = st.objects.map Object.copy)
      ∧ (resizeObjects st n).globalID = counterAfter st.globalID n
      ∧ (resizeObjects st n).rand = st.rand := by
  unfold resizeObjects
  by_cases hn : n = 0
  · subst hn
    exact ⟨st.objects, by simp [defaultObjects], Or.inl rfl, by simp [counterAfter], by simp⟩
  · simp only [hn, if_false]
    split_ifs
    · exact ⟨st.objects, rfl, Or.inl rfl, (defaultObjects_spec n st.globalID).2, rfl⟩
    · exact ⟨st.objects.map Object.copy, rfl, Or.inr rfl, (defaultObjects_spec n st.globalID).2, rfl⟩

theorem resizeObjects_take {R : RandomEngine} (st : GenState R) (n : Nat) :
    ∃ old, (resizeObjects st n).objects.take ((resizeObjects st n).objects.length - n) = old
      ∧ (old = st.objects ∨ old = st.objects.map Object.copy)
      ∧ (resizeObjects st n).objects.length = st.objects.length + n := by
  obtain ⟨old, hobj, hold, _, _⟩ := resizeObjects_spec st n
  have hlen : (defaultObjects n st.globalID).1.length = n := (defaultObjects_spec n st.globalID).1
  have holdlen : old.length = st.objects.length := by
    rcases hold with h | h <;> simp [h]
  refine ⟨old, ?_, hold, ?_⟩
  · rw [hobj, List.length_append, hlen, Nat.add_sub_cancel, List.take_left]
  · rw [hobj, List.length_append, hlen, holdlen]

theorem map_id_copy (l : List Object) :
    (l.map Object.copy).map (fun o => o.id) = l.map (fun o => o.id) := by
  simp [Object.copy, Function.comp_def]

theorem map_base_copy (l : List Object) :
    (l.map Object.copy).map (fun o => o.toObjectBase) = l.map (fun o => o.toObjectBase) := by
  simp [Object.copy, Function.comp_def]

theorem assignCavityTables_spec {β : Type} (key : Object → β)
    (hkey : ∀ (o : Object) (t : Table),
      key { o with source := some t, destination := some t } = key o)
    (R : RandomEngine) (ppTables : List Table) (n : Nat) (ps : List Nat) (rand : R.State)
    (objects : List Object) (rand2 : R.State) (objects2 : List Object)
    (h : assignCavityTables R ppTables n ps rand objects = .ok (rand2, objects2)) :
    objects2.map key = objects.map key := by
  induction ps generalizing rand objects with
  | nil =>
    simp only [assignCavityTables, Outcome.ok.injEq, Prod.mk.injEq] at h
    rw [← h.2]
  | cons p ps ih =>
    simp only [assignCavityTables] at h
    split at h
    · simp at h
    · rename_i table _
      rw [ih _ _ h]
      exact map_modify_of_preserved key _ (fun o => hkey o table) objects p

theorem place_spec {β : Type} (key : Object → β)
    (hkey : ∀ (o : Object), key { o with orientation := .FREE } = key o)
    (d : TaskDefinition) (objects : List Object) (p : Nat) :
    (place d objects p).map key = objects.map key := by
  unfold place
  apply map_modify_of_preserved
  intro o
  split_ifs
  · exact hkey o
  · rfl

theorem fillCavities_spec {β : Type} (key : Object → β)
    (hkey : ∀ (o : Object), key { o with orientation := .FREE } = key o)
    (R : RandomEngine) (d : TaskDefinition) (i : Nat) (cavities : List Nat) (last : Int)
    (rand : R.State) (objects : List Object) (res : List Nat × R.State × List Object)
    (h : fillCavities R d i cavities last rand objects = .ok res) :
    res.2.2.map key = objects.map key := by
  induction i generalizing cavities last rand objects with
  | zero =>
    simp only [fillCavities, Outcome.ok.injEq] at h
    rw [← h]
  | succ i ih =>
    simp only [fillCavities] at h
    split at h
    · simp at h
    · split_ifs at h
      rw [ih _ _ _ _ h]
      exact place_spec key hkey d objects _

theorem fillContainers_spec {β : Type} (key : Object → β)
    (hkey : ∀ (o : Object), key { o with orientation := .FREE } = key o)
    (R : RandomEngine) (d : TaskDefinition) (containers : List Nat) (i : Nat)
    (rand : R.State) (objects : List Object) (res : R.State × List Object)
    (h : fillContainers R d containers i rand objects = .ok res) :
    res.2.map key = objects.map key := by
  induction i generalizing rand objects with
  | zero =>
    simp only [fillContainers, Outcome.ok.injEq] at h
    rw [← h]
  | succ i ih =>
    simp only [fillContainers] at h
    split at h
    · simp at h
    · rw [ih _ _ h]
      exact place_spec key hkey d objects _

/-- Ids after `generateCavities`: `k` place holders draw the ids first, the `k` objects assigned
over them draw the next `k`. -/
theorem generateCavities_spec (R : RandomEngine) (mTables : List Table)
    (availableCavities : List ObjectType) (st : GenState R) (cavities : List Nat)
    (st2 : GenState R)
    (h : generateCavities R mTables availableCavities st = .ok (cavities, st2)) :
    ∃ k, st2.objects.length = st.objects.length + k
      ∧ st2.objects.map (fun o => o.id)
          = st.objects.map (fun o => o.id) ++ idsFrom (counterAfter st.globalID k) k
      ∧ st2.globalID = counterAfter st.globalID (k + k) := by
  unfold generateCavities at h
  simp only [] at h
  split_ifs at h with hk
  split at h
  · rename_i rand objects heq
    simp only [Outcome.ok.injEq, Prod.mk.injEq] at h
    obtain ⟨-, hst⟩ := h
    subst hst
    generalize hkdef : min (countTables mTables "PP" * 5)
      (availableCavities.map (fun t => t.count)).sum = k at *
    obtain ⟨old, htake, hold, hlen⟩ := resizeObjects_take st k
    obtain ⟨_, _, _, hgid, _⟩ := resizeObjects_spec st k
    have htaken : ((R.shuffle availableCavities st.rand).1.take k).length = k := by
      rw [List.length_take]; omega
    obtain ⟨f1, f2, f3, _⟩ := objectsFromTypes_spec
      ((R.shuffle availableCavities st.rand).1.take k) (resizeObjects st k).globalID
    rw [htaken] at f1 f2 f3
    have hids := assignCavityTables_spec (fun o => o.id) (fun _ _ => rfl) _ _ _ _ _ _ _ _ heq
    have hlens := assignCavityTables_spec (fun _ => ()) (fun _ _ => rfl) _ _ _ _ _ _ _ _ heq
    have hlen2 := congrArg List.length hlens
    simp only [List.length_map] at hlen2
    have holdlen : old.length = st.objects.length := by
      rcases hold with h | h <;> simp [h]
    have holdids : old.map (fun o => o.id) = st.objects.map (fun o => o.id) := by
      rcases hold with h | h
      · rw [h]
      · rw [h, map_id_copy]
    rw [htake] at hids hlen2
    refine ⟨k, ?_, ?_, ?_⟩
    · show objects.length = _
      rw [hlen2, List.length_append, f1, holdlen]
    · show objects.map (fun o => o.id) = _
      rw [hids, List.map_append, f2, hgid, holdids]
    · show (objectsFromTypes _ _).2 = _
      rw [f3, hgid, counterAfter_add]
  · simp at h
  · simp at h

/-- The objects built for one container type: their number, ids, classification and tables. -/
theorem containerUnits_spec (R : RandomEngine) (tables : List Table) (type : ObjectType)
    (i : Nat) (rand : R.State) (g : Nat) (units : List Object) (rand2 : R.State) (g2 : Nat)
    (h : containerUnits R tables type i rand g = .ok (units, rand2, g2)) :
    units.length = i
    ∧ units.map (fun o => o.id) = idsFrom g i
    ∧ g2 = counterAfter g i
    ∧ (∀ o ∈ units, o.toObjectBase = type.toObjectBase)
    ∧ (∀ o ∈ units, ∃ t ∈ tables, o.source = some t ∧ o.destination = some t) := by
  induction i generalizing rand g units rand2 g2 with
  | zero =>
    simp only [containerUnits, Outcome.ok.injEq, Prod.mk.injEq] at h
    obtain ⟨h1, -, h3⟩ := h
    subst h1 h3
    simp [idsFrom, counterAfter]
  | succ i ih =>
    simp only [containerUnits] at h
    split at h
    · simp at h
    · rename_i table htable
      split at h
      · rename_i rest rand3 g3 heq
        simp only [Outcome.ok.injEq, Prod.mk.injEq] at h
        obtain ⟨h1, -, h3⟩ := h
        subst h1 h3
        obtain ⟨i1, i2, i3, i4, i5⟩ := ih _ _ _ _ _ heq
        have hmem : table ∈ tables := List.getElem?_mem htable
        refine ⟨by simp [i1], ?_, ?_, ?_, ?_⟩
        · simp only [List.map_cons, i2, idsFrom, Object.fromType]
        · simp only [i3, counterAfter, Object.fromType]
        · intro o ho
          rcases List.mem_cons.mp ho with rfl | ho
          · rfl
          · exact i4 o ho
        · intro o ho
          rcases List.mem_cons.mp ho with rfl | ho
          · exact ⟨table, hmem, rfl, rfl⟩
          · exact i5 o ho
      · simp at h
      · simp at h

/-- The objects written by the loops of `generateContainers`: their number, ids,
classifications (each Container entry repeated `count` times, in order) and tables. -/
theorem containerObjects_spec (R : RandomEngine) (tables : List Table)
    (types : List ObjectType) (rand : R.State) (g : Nat) (made : List Object) (rand2 : R.State)
    (g2 : Nat) (h : containerObjects R tables types rand g = .ok (made, rand2, g2)) :
    made.length = numContainersAvailable types
    ∧ made.map (fun o => o.id) = idsFrom g made.length
    ∧ g2 = counterAfter g made.length
    ∧ made.map (fun o => o.toObjectBase)
        = (types.filter (fun t => t.type = .CONTAINER)).flatMap
            (fun t => List.replicate t.count t.toObjectBase)
    ∧ (∀ o ∈ made, ∃ t ∈ tables, o.source = some t ∧ o.destination = some t) := by
  induction types generalizing rand g made rand2 g2 with
  | nil =>
    simp only [containerObjects, Outcome.ok.injEq, Prod.mk.injEq] at h
    obtain ⟨h1, -, h3⟩ := h
    subst h1 h3
    simp [idsFrom, counterAfter, numContainersAvailable]
  | cons type rest ih =>
    simp only [containerObjects] at h
    by_cases hc : type.type = .CONTAINER
    · simp only [hc, if_true] at h
      split at h
      · rename_i units rand3 g3 hunits
        split at h
        · rename_i more rand4 g4 hmore
          simp only [Outcome.ok.injEq, Prod.mk.injEq] at h
          obtain ⟨h1, -, h3⟩ := h
          subst h1 h3
          obtain ⟨u1, u2, u3, u4, u5⟩ := containerUnits_spec _ _ _ _ _ _ _ _ _ hunits
          obtain ⟨m1, m2, m3, m4, m5⟩ := ih _ _ _ _ _ hmore
          refine ⟨?_, ?_, ?_, ?_, ?_⟩
          · simp [numContainersAvailable, hc, u1, m1]
          · rw [List.map_append, List.length_append, idsFrom_add, u2, m2, u1, u3]
          · rw [List.length_append, counterAfter_add, m3, u3, u1]
          · rw [List.map_append, m4, List.filter_cons]
            simp only [hc, decide_True, if_true, List.flatMap_cons]
            congr 1
            rw [List.eq_replicate_iff]
            refine ⟨by simp [u1], ?_⟩
            intro b hb
            obtain ⟨o, ho, rfl⟩ := List.mem_map.mp hb
            exact u4 o ho
          · intro o ho
            rcases List.mem_append.mp ho with ho | ho
            · exact u5 o ho
            · exact m5 o ho
        · simp at h
        · simp at h
      · simp at h
      · simp at h
    · simp only [hc, if_false] at h
      obtain ⟨m1, m2, m3, m4, m5⟩ := ih _ _ _ _ _ h
      refine ⟨?_, m2, m3, ?_, m5⟩
      · simp [numContainersAvailable, hc, m1]
      · rw [m4, List.filter_cons]
        simp [hc]

/-- What a returning `generateContainers` has done to the state. -/
theorem generateContainers_spec (R : RandomEngine) (mTables : List Table) (d : TaskDefinition)
    (availableObjects : List ObjectType) (st : GenState R) (containers : List Nat)
    (st2 : GenState R)
    (h : generateContainers R mTables d availableObjects st = .ok (containers, st2)) :
    ∃ old made, st2.objects = old ++ made
      ∧ (old = st.objects ∨ old = st.objects.map Object.copy)
      ∧ made.length = numContainersAvailable availableObjects
      ∧ made.map (fun o => o.id)
          = idsFrom (counterAfter st.globalID made.length) made.length
      ∧ st2.globalID = counterAfter st.globalID (made.length + made.length)
      ∧ made.map (fun o => o.toObjectBase)
          = (availableObjects.filter (fun t => t.type = .CONTAINER)).flatMap
              (fun t => List.replicate t.count t.toObjectBase)
      ∧ (∀ o ∈ made, ∃ t ∈ extractTablesByTypes mTables (allowedTableTypes d),
          o.source = some t ∧ o.destination = some t)
      ∧ containers = toPtr st.objects.length (st.objects.length + made.length) := by
  unfold generateContainers at h
  simp only [] at h
  split at h
  · rename_i made rand g2 heq
    simp only [Outcome.ok.injEq, Prod.mk.injEq] at h
    obtain ⟨hptr, hst⟩ := h
    subst hst
    obtain ⟨m1, m2, m3, m4, m5⟩ := containerObjects_spec _ _ _ _ _ _ _ _ heq
    obtain ⟨old, htake, hold, hlen⟩ := resizeObjects_take st (numContainersAvailable availableObjects)
    obtain ⟨_, _, _, hgid, _⟩ := resizeObjects_spec st (numContainersAvailable availableObjects)
    have holdlen : old.length = st.objects.length := by
      rcases hold with h | h <;> simp [h]
    rw [htake] at hptr
    refine ⟨old, made, ?_, hold, m1, ?_, ?_, m4, m5, ?_⟩
    · show List.take _ _ ++ made = _
      rw [htake]
    · rw [m2, hgid, m1]
    · show g2 = _
      rw [m3, hgid, counterAfter_add, m1]
    · rw [← hptr, List.length_append, holdlen, m1, Nat.add_sub_cancel]
  · simp at h
  · simp at h

/-- The ids of the collection at the `return` of `generate`: with `k` cavities and `m`
containers, the cavities hold the ids drawn after the first `k` draws, the containers those
drawn after `2k + m` draws. -/
theorem generateObjects_ids (R : RandomEngine) (g : TaskGeneratorImpl R) (taskName : Str)
    (st : GenState R) (h : generateObjects R g taskName = .ok st) :
    ∃ k m, st.objects.length = k + m
      ∧ st.objects.map (fun o => o.id)
          = idsFrom (counterAfter 0 k) k ++ idsFrom (counterAfter (counterAfter 0 (k + k)) m) m := by
  unfold generateObjects at h
  simp only [] at h
  split at h
  · split at h
    · split at h
      · rename_i cavities st1 hcav
        split_ifs at h
        split at h
        · rename_i cav2 rand2 objects2 hfill
          split at h
          · rename_i containers st3 hcont
            split_ifs at h
            split at h
            · rename_i rand4 objects4 hplace
              simp only [Outcome.ok.injEq] at h
              subst h
              obtain ⟨k, c1, c2, c3⟩ := generateCavities_spec _ _ _ _ _ _ hcav
              have f1 := fillCavities_spec (fun o => o.id) (fun _ => rfl) _ _ _ _ _ _ _ _ hfill
              obtain ⟨old, made, g1, g2, g3, g4, g5, -, -, -⟩ :=
                generateContainers_spec _ _ _ _ _ _ _ hcont
              have p1 := fillContainers_spec (fun o => o.id) (fun _ => rfl) _ _ _ _ _ _ _ hplace
              simp only [List.map_nil, List.nil_append, List.length_nil, Nat.zero_add] at c1 c2 f1
              simp only at f1 g2 g4 p1
              have holdids : old.map (fun o => o.id) = idsFrom (counterAfter 0 k) k := by
                rcases g2 with h | h
                · rw [h, f1, c2]
                · rw [h, map_id_copy, f1, c2]
              have hlen_old : old.length = k := by
                have := congrArg List.length holdids
                simpa [length_idsFrom] using this
              have hids : objects4.map (fun o => o.id)
                  = idsFrom (counterAfter 0 k) k
                    ++ idsFrom (counterAfter (counterAfter 0 (k + k)) made.length) made.length := by
                rw [p1, g1, List.map_append, holdids, g4, c3]
              refine ⟨k, made.length, ?_, hids⟩
              have := congrArg List.length hids
              simpa [length_idsFrom] using this
            · simp at h
            · simp at h
          · simp at h
          · simp at h
        · simp at h
        · simp at h
      · simp at h
      · simp at h
    · simp at h
    · simp at h
  · simp at h
  · simp at h

theorem nodup_ids_of_small (k m : Nat) (h : 2 * (k + m) ≤ 2 ^ 32) :
    (idsFrom (counterAfter 0 k) k
      ++ idsFrom (counterAfter (counterAfter 0 (k + k)) m) m).Nodup := by
  cases m with
  | zero =>
    have hk : counterAfter 0 k = k := by
      have := counterAfter_eq_add 0 k (by omega); omega
    rw [hk, idsFrom_eq_range k k (by omega)]
    simpa [idsFrom] using List.nodup_range' k k
  | succ m =>
    have hk : counterAfter 0 k = k := by
      have := counterAfter_eq_add 0 k (by omega); omega
    have hkk : counterAfter 0 (k + k) = k + k := by
      have := counterAfter_eq_add 0 (k + k) (by omega); omega
    have hm : counterAfter (k + k) (m + 1) = k + k + (m + 1) :=
      counterAfter_eq_add (k + k) (m + 1) (by omega)
    rw [hk, hkk, hm, idsFrom_eq_range k k (by omega),
      idsFrom_eq_range (k + k + (m + 1)) (m + 1) (by omega)]
    rw [List.nodup_append]
    refine ⟨List.nodup_range' k k, List.nodup_range' _ _, ?_⟩
    intro a ha hb
    rw [List.mem_range'_1] at ha hb
    omega

/-- Every returning call of `generate` returns `Task()`. -/
theorem generate_task_default (R : RandomEngine) (g : TaskGeneratorImpl R) (taskName : Str)
    (t : Task) (g2 : TaskGeneratorImpl R) (h : generate R g taskName = .ok (t, g2)) :
    t = { name := [], objects := [] } := by
  unfold generate at h
  split at h
  · simp only [Outcome.ok.injEq, Prod.mk.injEq] at h
    exact h.1.symm
  · simp at h
  · simp at h

/-- C6: on the sample generator the call `generate("BTT1")` completes; its body has built a
collection of three objects, yet the task returned is `Task()`: its name is empty, not `BTT1`,
and it holds no object. -/
theorem generate_returns_default_task :
    ∃ st g2, generateObjects sampleEngine sampleGenerator "BTT1".toList = .ok st
      ∧ st.objects.length = 3
      ∧ generate sampleEngine sampleGenerator "BTT1".toList
          = .ok ({ name := [], objects := [] }, g2)
      ∧ ({ name := [], objects := [] } : Task).name ≠ "BTT1".toList :=
  ⟨_, _, rfl, rfl, rfl, by decide⟩

/-- C7: when the task defines `seed`, the body of `generate` reaches the same state (same
objects, with the same classifications, ids and tables, in the same order, same counter, same
engine) from any two prior engine states, and `generate` returns the same result; a second
call on the generator left by a first call returns what the first returned. -/
theorem generate_seeded_deterministic (R : RandomEngine) (g : TaskGeneratorImpl R)
    (taskName : Str) (v : Int) (s₁ s₂ : R.State)
    (hseed : (taskDef g.mTasks taskName).find "seed" = some v) :
    generateObjects R { g with mRand := s₁ } taskName
      = generateObjects R { g with mRand := s₂ } taskName
    ∧ generate R { g with mRand := s₁ } taskName = generate R { g with mRand := s₂ } taskName
    ∧ (∀ t g1, generate R g taskName = .ok (t, g1) → generate R g1 taskName = .ok (t, g1)) := by
  have hobj : ∀ s : R.State, generateObjects R { g with mRand := s } taskName
      = generateObjects R g taskName := by
    intro s
    simp only [generateObjects, hseed]
  have hgen : ∀ s : R.State, generate R { g with mRand := s } taskName
      = (match generateObjects R g taskName with
        | .ok st => .ok (({} : Task), { g with mRand := st.rand })
        | .thrown k w => .thrown k w
        | .undefined => .undefined) := by
    intro s
    simp only [generate, hobj]
  refine ⟨(hobj s₁).trans (hobj s₂).symm, (hgen s₁).trans (hgen s₂).symm, ?_⟩
  intro t g1 h
  have h0 : generate R g taskName = _ := hgen g.mRand
  rw [h0] at h
  cases hst : generateObjects R g taskName with
  | ok st =>
    rw [hst] at h
    simp only [Outcome.ok.injEq, Prod.mk.injEq] at h
    obtain ⟨ht, hg1⟩ := h
    subst ht hg1
    rw [hgen, hst]
  | thrown k w => rw [hst] at h; simp at h
  | undefined => rw [hst] at h; simp at h

/-- Witness for `generate_seeded_deterministic`: the sample task defines the seed 42; started
from the engine states 1 and 7 the body builds the same three objects. -/
theorem generate_seeded_deterministic_witness :
    (taskDef sampleGenerator.mTasks "BTT1".toList).find "seed" = some 42
    ∧ generateObjects sampleEngine { sampleGenerator with mRand := (1 : Nat) } "BTT1".toList
      = generateObjects sampleEngine { sampleGenerator with mRand := (7 : Nat) } "BTT1".toList :=
  ⟨by decide,
    (generate_seeded_deterministic sampleEngine sampleGenerator "BTT1".toList 42
      (1 : Nat) (7 : Nat) (by decide)).1⟩

/-- C8: at the end of every `generate` call that completes, building fewer than `2^31 + 1`
objects (so that the 32-bit id counter has not wrapped), the ids of the objects of the
collection are pairwise distinct. -/
theorem generated_ids_nodup (R : RandomEngine) (g : TaskGeneratorImpl R) (taskName : Str)
    (st : GenState R) (h : generateObjects R g taskName = .ok st)
    (hsmall : 2 * st.objects.length ≤ 2 ^ 32) :
    (st.objects.map (fun o => o.id)).Nodup := by
  obtain ⟨k, m, hlen, hids⟩ := generateObjects_ids R g taskName st h
  rw [hids]
  exact nodup_ids_of_small k m (by omega)

/-- Witness for `generated_ids_nodup`: the call on the sample generator completes with three
objects, of ids 1, 4 and 5. -/
theorem generated_ids_nodup_witness :
    ∃ st, generateObjects sampleEngine sampleGenerator "BTT1".toList = .ok st
      ∧ 2 * st.objects.length ≤ 2 ^ 32
      ∧ st.objects.map (fun o => o.id) = [1, 4, 5]
      ∧ (st.objects.map (fun o => o.id)).Nodup :=
  ⟨_, rfl, by decide, rfl,
    generated_ids_nodup sampleEngine sampleGenerator "BTT1".toList _ rfl (by decide)⟩

theorem zero_not_mem_idsFrom (g n : Nat) (hg : 0 < g) (h : g + n ≤ 2 ^ 32) :
    0 ∉ idsFrom g n := by
  rw [idsFrom_eq_range g n h, List.mem_range'_1]
  omega

/-- After a completed call that built at least one object (and fewer than `2^31`), no object of
the collection has the id `0`. -/
theorem zero_not_generated_id (R : RandomEngine) (g : TaskGeneratorImpl R) (taskName : Str)
    (st : GenState R) (h : generateObjects R g taskName = .ok st)
    (hsmall : 2 * st.objects.length < 2 ^ 32) :
    0 ∉ st.objects.map (fun o => o.id) := by
  obtain ⟨k, m, hlen, hids⟩ := generateObjects_ids R g taskName st h
  rw [hids, List.mem_append]
  have hk : counterAfter 0 k = k := by
    have := counterAfter_eq_add 0 k (by omega); omega
  have hkk : counterAfter 0 (k + k) = k + k := by
    have := counterAfter_eq_add 0 (k + k) (by omega); omega
  have hm : counterAfter (k + k) m = k + k + m := counterAfter_eq_add (k + k) m (by omega)
  rw [hk, hkk, hm]
  rintro (h0 | h0)
  · cases k with
    | zero => simp [idsFrom] at h0
    | succ k => exact zero_not_mem_idsFrom _ _ (by omega) (by omega) h0
  · cases m with
    | zero => simp [idsFrom] at h0
    | succ m => exact zero_not_mem_idsFrom _ _ (by omega) (by omega) h0

/-- C9: on the sample generator the call `generate("BTT1")` completes with a collection of three
objects whose ids are 1, 4 and 5, not 0, 1 and 2: the objects built by `resize` as place
holders draw ids too, so every object of the collection has consumed two ids. -/
theorem generated_ids_not_dense :
    ∃ st, generateObjects sampleEngine sampleGenerator "BTT1".toList = .ok st
      ∧ st.objects.length = 3
      ∧ st.objects.map (fun o => o.id) = [1, 4, 5]
      ∧ st.globalID = 6
      ∧ ¬ (∀ i, i ∈ st.objects.map (fun o => o.id) ↔ i < st.objects.length) :=
  ⟨_, rfl, rfl, rfl, rfl, fun hall => absurd ((hall 0).mpr (by decide)) (by decide)⟩

theorem containerUnits_ok (R : RandomEngine) (tables : List Table) (type : ObjectType)
    (i : Nat) (rand : R.State) (g : Nat) (ht : tables ≠ []) :
    ∃ res, containerUnits R tables type i rand g = .ok res := by
  induction i generalizing rand g with
  | zero => exact ⟨_, rfl⟩
  | succ i ih =>
    have hpos : 1 ≤ tables.length := List.length_pos.mpr ht
    have hdraw := (R.uniform_range 0 (sizeSub tables.length 1) rand (Nat.zero_le _)).2
    rw [sizeSub_of_le hpos] at hdraw
    have hlt : (R.uniform 0 (tables.length - 1) rand).1 < tables.length := by omega
    obtain ⟨⟨rest, rand3, g3⟩, hres⟩ :=
      ih (R.uniform 0 (tables.length - 1) rand).2 (Object.fromType type g).2
    refine ⟨({ (Object.fromType type g).1 with
        source := some tables[(R.uniform 0 (tables.length - 1) rand).1],
        destination := some tables[(R.uniform 0 (tables.length - 1) rand).1] } :: rest,
      rand3, g3), ?_⟩
    simp only [containerUnits, sizeSub_of_le hpos, List.getElem?_eq_getElem hlt, hres]

theorem containerObjects_ok (R : RandomEngine) (tables : List Table) (types : List ObjectType)
    (rand : R.State) (g : Nat) (ht : tables ≠ []) :
    ∃ res, containerObjects R tables types rand g = .ok res := by
  induction types generalizing rand g with
  | nil => exact ⟨_, rfl⟩
  | cons type rest ih =>
    by_cases hc : type.type = .CONTAINER
    · obtain ⟨⟨units, rand3, g3⟩, hunits⟩ :=
        containerUnits_ok R tables type type.count rand g ht
      obtain ⟨⟨more, rand4, g4⟩, hmore⟩ := ih rand3 g3
      refine ⟨(units ++ more, rand4, g4), ?_⟩
      simp only [containerObjects, hc, if_true, hunits, hmore]
    · obtain ⟨more, hmore⟩ := ih rand g
      exact ⟨more, by simp only [containerObjects, hc, if_false, hmore]⟩

/-- Container quota on an arena with at least one candidate table: `generateContainers` returns;
the objects held before keep their place (rebuilt by the copy constructor when the vector had to
move), the appended objects are as many as the counts of the Container entries sum to, their
classifications are those of the Container entries, each repeated `count` times, in order; every
appended object has one table of the candidate set as source and destination; and the pointers
returned are the positions of the appended objects. -/
theorem generateContainers_quota (R : RandomEngine) (mTables : List Table) (d : TaskDefinition)
    (availableObjects : List ObjectType) (st : GenState R)
    (ht : extractTablesByTypes mTables (allowedTableTypes d) ≠ []) :
    ∃ containers st2 old made,
      generateContainers R mTables d availableObjects st = .ok (containers, st2)
      ∧ st2.objects = old ++ made
      ∧ (old = st.objects ∨ old = st.objects.map Object.copy)
      ∧ made.length
          = ((availableObjects.filter (fun t => t.type = .CONTAINER)).map (fun t => t.count)).sum
      ∧ made.map (fun o => o.toObjectBase)
          = (availableObjects.filter (fun t => t.type = .CONTAINER)).flatMap
              (fun t => List.replicate t.count t.toObjectBase)
      ∧ (∀ o ∈ made, ∃ t ∈ extractTablesByTypes mTables (allowedTableTypes d),
          o.source = some t ∧ o.destination = some t)
      ∧ containers = toPtr st.objects.length (st.objects.length + made.length) := by
  obtain ⟨⟨made0, rand0, g0⟩, hres⟩ := containerObjects_ok R _ availableObjects st.rand
    (resizeObjects st (numContainersAvailable availableObjects)).globalID ht
  have hgen : ∃ r, generateContainers R mTables d availableObjects st = .ok r := by
    simp only [generateContainers, hres]
    exact ⟨_, rfl⟩
  obtain ⟨⟨containers, st2⟩, hr⟩ := hgen
  obtain ⟨old, made, g1, g2, g3, -, -, g6, g7, g8⟩ :=
    generateContainers_spec R mTables d availableObjects st containers st2 hr
  refine ⟨containers, st2, old, made, hr, g1, g2, ?_, g6, g7, g8⟩
  rw [g3, numContainersAvailable]
  clear hr hres g1 g2 g3 g6 g7 g8
  induction availableObjects with
  | nil => simp
  | cons t ts ih =>
    by_cases hc : t.type = .CONTAINER
    · simp [List.filter_cons, hc, ih]
    · simp [List.filter_cons, hc, ih]

theorem containerUnits_undefined (R : RandomEngine) (type : ObjectType) (i : Nat)
    (rand : R.State) (g : Nat) :
    containerUnits R [] type (i + 1) rand g = .undefined := by
  simp [containerUnits]

/-- C10: on a registry without a table of type `00`, `05`, `10` or `15` the candidate table
vector of `generateContainers` is empty; asked for one red container the function draws from
`0 .. size_t(-1)` and reads the empty vector at the drawn position: it has no defined result and
returns no references, where one object was to be appended.  The same happens inside `generate`
for a task that passes both feasibility checks. -/
theorem generateContainers_without_candidate_table :
    extractTablesByTypes shelfTables (allowedTableTypes []) = []
    ∧ sizeSub ([] : List Table).length 1 = 18446744073709551615
    ∧ numContainersAvailable [⟨⟨.CONTAINER, "DEFAULT".toList, "RED".toList, .FREE⟩, 1⟩] = 1
    ∧ generateContainers sampleEngine shelfTables []
        [⟨⟨.CONTAINER, "DEFAULT".toList, "RED".toList, .FREE⟩, 1⟩]
        { rand := (1 : Nat), globalID := 0, objects := [], capacity := 0 } = .undefined
    ∧ sanityCheck shelfGenerator.mTasks shelfGenerator.mTables = .ok ()
    ∧ extractObjectTypes shelfGenerator.mTasks "BTT3".toList
        = .ok [⟨⟨.CONTAINER, "DEFAULT".toList, "RED".toList, .FREE⟩, 1⟩]
    ∧ sanityCheckTask shelfGenerator.mTasks shelfGenerator.mTables "BTT3".toList
        [⟨⟨.CONTAINER, "DEFAULT".toList, "RED".toList, .FREE⟩, 1⟩] = .ok ()
    ∧ (generateCavities sampleEngine shelfTables []
        { rand := (1 : Nat), globalID := 0, objects := [], capacity := 0 }).isOk = true
    ∧ generateObjects sampleEngine shelfGenerator "BTT3".toList = .undefined :=
  ⟨by decide, by norm_num [sizeSub], by decide, rfl, by decide, by decide, by decide, rfl, rfl⟩

/-! Round trip of the type code -/

theorem code_eq_take_append_last_two (code : Str) (h : 2 ≤ code.length) (a b : Char)
    (ha : code[code.length - 2]? = some a) (hb : code[code.length - 1]? = some b) :
    code = code.take (code.length - 2) ++ [a, b] := by
  have h2 : code.length - 2 < code.length := by omega
  have h1 : code.length - 1 < code.length := by omega
  have ea : code[code.length - 2] = a := by
    rw [List.getElem?_eq_getElem h2] at ha; exact Option.some.inj ha
  have eb : code[code.length - 1] = b := by
    rw [List.getElem?_eq_getElem h1] at hb; exact Option.some.inj hb
  have hd : code.drop (code.length - 2) = [a, b] := by
    rw [List.drop_eq_getElem_cons h2, ea]
    have hs : code.length - 2 + 1 = code.length - 1 := by omega
    rw [hs, List.drop_eq_getElem_cons h1, eb]
    have hs2 : code.length - 1 + 1 = code.length := by omega
    rw [hs2, List.drop_length]
  conv_lhs => rw [← List.take_append_drop (code.length - 2) code, hd]

theorem drop_pred_length (code : Str) (h : 2 ≤ code.length) (b : Char)
    (hb : code[code.length - 1]? = some b) : code.drop (code.length - 1) = [b] := by
  have h1 : code.length - 1 < code.length := by omega
  have eb : code[code.length - 1] = b := by
    rw [List.getElem?_eq_getElem h1] at hb; exact Option.some.inj hb
  rw [List.drop_eq_getElem_cons h1, eb]
  have hs2 : code.length - 1 + 1 = code.length := by omega
  rw [hs2, List.drop_length]

/-- Formatting the classification of a code of at least two characters gives the code back. -/
theorem formatObjectBase_lineSafeClassify (code : Str) (h : 2 ≤ code.length) :
    formatObjectBase (lineSafeClassify code) = code := by
  obtain ⟨a, ha⟩ : ∃ a, code[code.length - 2]? = some a :=
    ⟨code[code.length - 2], List.getElem?_eq_getElem (by omega)⟩
  obtain ⟨b, hb⟩ : ∃ b, code[code.length - 1]? = some b :=
    ⟨code[code.length - 1], List.getElem?_eq_getElem (by omega)⟩
  have hsplit := code_eq_take_append_last_two code h a b ha hb
  have hlast := drop_pred_length code h b hb
  unfold lineSafeClassify
  simp only [ha, hb, Option.some.injEq]
  split_ifs with h1 h2 h3 h4
  · obtain ⟨rfl, hv⟩ := h1
    subst h2
    simp only [formatObjectBase, formatOrientation]
    conv_rhs => rw [hsplit]
    simp
  · obtain ⟨rfl, hv⟩ := h1
    have hH : b = 'H' := by
      rcases hv with hv | hv
      · exact hv
      · exact absurd hv h2
    subst hH
    simp only [formatObjectBase, formatOrientation]
    conv_rhs => rw [hsplit]
    simp
  · obtain ⟨rfl, hv⟩ := h3
    simp only [formatObjectBase, hlast]
    conv_rhs => rw [hsplit]
    simp
  · obtain ⟨t, ht⟩ := List.isPrefixOf_iff_prefix.mp h4.1
    simp only [formatObjectBase]
    conv_rhs => rw [← ht]
    rw [← ht]
    simp
  · simp only [formatObjectBase]

/-- C20: for every type code of at least two characters, the text the stream operator of
`ObjectBase` writes for the classification built from the code is the code itself; hence two
such codes with the same classification are equal. -/
theorem format_fromTypeName_roundtrip (code₁ code₂ : Str) (h₁ : 2 ≤ code₁.length)
    (h₂ : 2 ≤ code₂.length) :
    (∃ b, ObjectBase.fromTypeName code₁ = .ok b ∧ formatObjectBase b = code₁)
    ∧ (ObjectBase.fromTypeName code₁ = ObjectBase.fromTypeName code₂ → code₁ = code₂) := by
  have e₁ := fromTypeName_eq_lineSafeClassify code₁ h₁
  have e₂ := fromTypeName_eq_lineSafeClassify code₂ h₂
  refine ⟨⟨_, e₁, formatObjectBase_lineSafeClassify code₁ h₁⟩, ?_⟩
  intro heq
  rw [e₁, e₂] at heq
  have hb : lineSafeClassify code₁ = lineSafeClassify code₂ := Outcome.ok.inj heq
  rw [← formatObjectBase_lineSafeClassify code₁ h₁, ← formatObjectBase_lineSafeClassify code₂ h₂,
    hb]

/-- Witness for `format_fromTypeName_roundtrip`: the codes `S40_40_H` and `CONTAINER_RED`. -/
theorem format_fromTypeName_roundtrip_witness :
    2 ≤ "S40_40_H".toList.length ∧ 2 ≤ "CONTAINER_RED".toList.length
    ∧ (∃ b, ObjectBase.fromTypeName "S40_40_H".toList = .ok b
        ∧ formatObjectBase b = "S40_40_H".toList) :=
  ⟨by decide, by decide,
    (format_fromTypeName_roundtrip "S40_40_H".toList "CONTAINER_RED".toList
      (by decide) (by decide)).1⟩

/-! Table registry -/

theorem filter_type_perm_split (l : List Table) (ty : Str) (rest : List Str) (h : ty ∉ rest) :
    (l.filter (fun t => t.type ∈ ty :: rest)).Perm
      (l.filter (fun t => t.type = ty) ++ l.filter (fun t => t.type ∈ rest)) := by
  induction l with
  | nil => simp
  | cons t l ih =>
    by_cases h1 : t.type = ty
    · have h2 : t.type ∉ rest := fun hm => h (h1 ▸ hm)
      simp only [List.filter_cons, h1, List.mem_cons, true_or, decide_True, if_true,
        List.cons_append]
      have h3 : decide (ty ∈ rest) = false := by simpa using h
      simp only [h3, Bool.false_eq_true, if_false]
      have ih2 := ih
      simp only [List.mem_cons] at ih2
      exact List.Perm.cons t ih2
    · by_cases h2 : t.type ∈ rest
      · simp only [List.filter_cons, h1, h2, List.mem_cons, false_or, decide_True, if_true,
          decide_False, Bool.false_eq_true, if_false]
        have ih2 := ih
        simp only [List.mem_cons] at ih2
        exact (List.Perm.cons t ih2).trans List.perm_middle.symm
      · simp only [List.filter_cons, h1, h2, List.mem_cons, false_or, decide_False,
          Bool.false_eq_true, if_false]
        have ih2 := ih
        simp only [List.mem_cons] at ih2
        exact ih2

theorem extractTablesByTypes_perm (mTables : List Table) (types : List String)
    (hd : types.Nodup) :
    (extractTablesByTypes mTables types).Perm
      (mTables.filter (fun t => t.type ∈ types.map String.toList)) := by
  induction types with
  | nil => simp [extractTablesByTypes]
  | cons ty rest ih =>
    have hnot : ty ∉ rest := (List.nodup_cons.mp hd).1
    have hnot2 : ty.toList ∉ rest.map String.toList := by
      intro hm
      obtain ⟨x, hx, hxe⟩ := List.mem_map.mp hm
      have : x = ty := by
        have := congrArg String.mk hxe
        simpa using this
      exact hnot (this ▸ hx)
    have ih2 := ih (List.nodup_cons.mp hd).2
    unfold extractTablesByTypes at ih2 ⊢
    rw [List.flatMap_cons, List.map_cons]
    exact (List.Perm.append_left _ ih2).trans
      (filter_type_perm_split mTables ty.toList (rest.map String.toList) hnot2).symm

theorem extractTablesByTypes_types (mTables : List Table) (types : List String) :
    (extractTablesByTypes mTables types).map (fun t => t.type)
      = types.flatMap (fun ty => List.replicate (countTables mTables ty) ty.toList) := by
  induction types with
  | nil => simp [extractTablesByTypes]
  | cons ty rest ih =>
    unfold extractTablesByTypes at ih ⊢
    rw [List.flatMap_cons, List.flatMap_cons, List.map_append, ih]
    congr 1
    rw [List.eq_replicate_iff]
    refine ⟨by simp [countTables], ?_⟩
    intro b hb
    obtain ⟨t, ht, rfl⟩ := List.mem_map.mp hb
    simpa using (List.mem_filter.mp ht).2

/-- C13: for every list of pairwise distinct type codes, `extractTablesByTypes` returns the
registered tables whose type occurs in the list, each as often as it is registered (the result
is a permutation of that part of the registry); the types of the result run through the
requested list in order, each repeated as often as there are tables of it; the length is the
number of such tables; and the result is empty when no registered table matches. -/
theorem extractTablesByTypes_exact (mTables : List Table) (types : List String)
    (hd : types.Nodup) :
    (extractTablesByTypes mTables types).Perm
      (mTables.filter (fun t => t.type ∈ types.map String.toList))
    ∧ (∀ t, t ∈ extractTablesByTypes mTables types
        ↔ t ∈ mTables ∧ ∃ ty ∈ types, t.type = ty.toList)
    ∧ (∀ t, (extractTablesByTypes mTables types).count t
        = if t.type ∈ types.map String.toList then mTables.count t else 0)
    ∧ (extractTablesByTypes mTables types).map (fun t => t.type)
        = types.flatMap (fun ty => List.replicate (countTables mTables ty) ty.toList)
    ∧ (extractTablesByTypes mTables types).length
        = (mTables.filter (fun t => t.type ∈ types.map String.toList)).length
    ∧ ((∀ t ∈ mTables, ∀ ty ∈ types, t.type ≠ ty.toList)
        → extractTablesByTypes mTables types = []) := by
  have hperm := extractTablesByTypes_perm mTables types hd
  refine ⟨hperm, ?_, ?_, extractTablesByTypes_types mTables types, hperm.length_eq, ?_⟩
  · intro t
    rw [hperm.mem_iff, List.mem_filter]
    simp only [List.mem_map, decide_eq_true_eq]
    constructor
    · rintro ⟨hm, ty, hty, he⟩; exact ⟨hm, ty, hty, he.symm⟩
    · rintro ⟨hm, ty, hty, he⟩; exact ⟨hm, ty, hty, he.symm⟩
  · intro t
    by_cases hm : t.type ∈ types.map String.toList
    · rw [hperm.count_eq, if_pos hm, List.count_filter (by simpa using hm)]
    · rw [hperm.count_eq, if_neg hm, List.count_eq_zero]
      intro hmem
      exact hm (by simpa using (List.mem_filter.mp hmem).2)
  · intro hno
    have hnil : mTables.filter (fun t => t.type ∈ types.map String.toList) = [] := by
      rw [List.filter_eq_nil_iff]
      intro t ht
      simp only [List.mem_map, decide_eq_true_eq, not_exists, not_and]
      intro ty hty he
      exact hno t ht ty hty he.symm
    rw [hnil] at hperm
    exact List.Perm.eq_nil hperm

/-- Witness for `extractTablesByTypes_exact`: the four height classes, which are pairwise
distinct, asked of the sample registry, whose only such table is `WS02`. -/
theorem extractTablesByTypes_exact_witness :
    ["00", "05", "10", "15"].Nodup
    ∧ extractTablesByTypes sampleGenerator.mTables ["00", "05", "10", "15"]
        = [{ name := "WS02".toList, type := "10".toList }]
    ∧ (extractTablesByTypes sampleGenerator.mTables ["00", "05", "10", "15"]).length
        = (sampleGenerator.mTables.filter
            (fun t => t.type ∈ ["00", "05", "10", "15"].map String.toList)).length :=
  ⟨by decide, by decide,
    (extractTablesByTypes_exact sampleGenerator.mTables ["00", "05", "10", "15"]
      (by decide)).2.2.2.2.1⟩

/-! Cavity generation -/

theorem setTables_getElem?_eq (objects : List Object) (p : Nat) (table : Table) (o : Object)
    (h : objects[p]? = some o) :
    (setTables objects p table)[p]?
      = some { o with source := some table, destination := some table } := by
  simp [setTables, h]

theorem setTables_getElem?_ne (objects : List Object) (p q : Nat) (table : Table)
    (h : p ≠ q) : (setTables objects p table)[q]? = objects[q]? := by
  simp [setTables, h]

theorem length_setTables (objects : List Object) (p : Nat) (table : Table) :
    (setTables objects p table).length = objects.length := by
  simp [setTables]

theorem assignCavityTables_keeps (R : RandomEngine) (ppTables : List Table) (n : Nat)
    (ps : List Nat) (rand : R.State) (objects : List Object) (rand2 : R.State)
    (objects2 : List Object)
    (h : assignCavityTables R ppTables n ps rand objects = .ok (rand2, objects2))
    (q : Nat) (o : Object) (hq : objects[q]? = some o)
    (ho : ∃ t ∈ ppTables, o.source = some t ∧ o.destination = some t) :
    ∃ o2, objects2[q]? = some o2
      ∧ ∃ t ∈ ppTables, o2.source = some t ∧ o2.destination = some t := by
  induction ps generalizing rand objects o with
  | nil =>
    simp only [assignCavityTables, Outcome.ok.injEq, Prod.mk.injEq] at h
    rw [← h.2]
    exact ⟨o, hq, ho⟩
  | cons p ps ih =>
    simp only [assignCavityTables] at h
    split at h
    · simp at h
    · rename_i table htable
      by_cases hpq : p = q
      · subst hpq
        exact ih _ _ h _ (setTables_getElem?_eq objects p table o hq)
          ⟨table, List.getElem?_mem htable, rfl, rfl⟩
      · exact ih _ _ h o (by rw [setTables_getElem?_ne objects p q table hpq]; exact hq) ho

theorem assignCavityTables_sets (R : RandomEngine) (ppTables : List Table) (n : Nat)
    (ps : List Nat) (rand : R.State) (objects : List Object) (rand2 : R.State)
    (objects2 : List Object)
    (h : assignCavityTables R ppTables n ps rand objects = .ok (rand2, objects2)) :
    ∀ q ∈ ps, q < objects.length →
      ∃ o2, objects2[q]? = some o2
        ∧ ∃ t ∈ ppTables, o2.source = some t ∧ o2.destination = some t := by
  induction ps generalizing rand objects with
  | nil => intro q hq; cases hq
  | cons p ps ih =>
    intro q hq hlt
    simp only [assignCavityTables] at h
    split at h
    · simp at h
    · rename_i table htable
      by_cases hpq : q = p
      · subst hpq
        exact assignCavityTables_keeps R ppTables n ps _ _ rand2 objects2 h q _
          (setTables_getElem?_eq objects q table objects[q] (List.getElem?_eq_getElem hlt))
          ⟨table, List.getElem?_mem htable, rfl, rfl⟩
      · have hmem : q ∈ ps := by
          rcases List.mem_cons.mp hq with h1 | h1
          · exact absurd h1 hpq
          · exact h1
        exact ih _ _ h q hmem (by rw [length_setTables]; exact hlt)

theorem mem_toPtr (start stop p : Nat) : p ∈ toPtr start stop ↔ start ≤ p ∧ p < stop := by
  simp only [toPtr, List.mem_map, List.mem_range]
  constructor
  · rintro ⟨i, hi, rfl⟩; omega
  · rintro ⟨h1, h2⟩; exact ⟨p - start, by omega, by omega⟩

theorem length_toPtr (start stop : Nat) : (toPtr start stop).length = stop - start := by
  simp [toPtr]

/-- C16: whenever `generateCavities` returns, every pointer of the returned vector `cavities`
points to an object of `objects` whose source and destination are one and the same table, and
that table is a registered table of type `PP`. -/
theorem generateCavities_tables (R : RandomEngine) (mTables : List Table)
    (availableCavities : List ObjectType) (st : GenState R) (cavities : List Nat)
    (st2 : GenState R)
    (h : generateCavities R mTables availableCavities st = .ok (cavities, st2)) :
    ∀ p ∈ cavities, ∃ o, st2.objects[p]? = some o
      ∧ ∃ t, o.source = some t ∧ o.destination = some t
        ∧ t ∈ mTables ∧ t.type = "PP".toList := by
  unfold generateCavities at h
  simp only [] at h
  split_ifs at h with hk
  split at h
  · rename_i rand objects heq
    simp only [Outcome.ok.injEq, Prod.mk.injEq] at h
    obtain ⟨hcav, hst⟩ := h
    subst hst
    intro p hp
    rw [← hcav, mem_toPtr] at hp
    obtain ⟨o, ho, t, ht, hs, hd⟩ :=
      assignCavityTables_sets R _ _ _ _ _ _ _ heq p (by rw [mem_toPtr]; exact hp) hp.2
    refine ⟨o, ho, t, hs, hd, ?_⟩
    have hmem : t ∈ mTables.filter (fun t => t.type = "PP".toList) := by
      simpa [extractTablesByTypes] using ht
    exact ⟨(List.mem_filter.mp hmem).1, by simpa using (List.mem_filter.mp hmem).2⟩
  · simp at h
  · simp at h

/-- Witness for `generateCavities_tables`: on the sample generator `generateCavities` returns one
cavity, at position 0, placed on the table `WS01` of type `PP`. -/
theorem generateCavities_tables_witness :
    ∃ st2, generateCavities sampleEngine sampleGenerator.mTables
        sampleGenerator.mAvailableCavities
        { rand := (1 : Nat), globalID := 0, objects := [], capacity := 0 } = .ok ([0], st2)
      ∧ ∃ o, st2.objects[0]? = some o
        ∧ ∃ t, o.source = some t ∧ o.destination = some t
          ∧ t ∈ sampleGenerator.mTables ∧ t.type = "PP".toList :=
  ⟨_, rfl, generateCavities_tables sampleEngine sampleGenerator.mTables
    sampleGenerator.mAvailableCavities
    { rand := (1 : Nat), globalID := 0, objects := [], capacity := 0 } [0] _ rfl 0
    (List.mem_singleton.mpr rfl)⟩

/-- When more cavities are to be generated than the type list has entries, `generateCavities`
reads past the end of the list, whatever the engine. -/
theorem generateCavities_undefined_of_short (R : RandomEngine) (mTables : List Table)
    (availableCavities : List ObjectType) (st : GenState R)
    (h : availableCavities.length
      < min (countTables mTables "PP" * 5) (availableCavities.map (fun t => t.count)).sum) :
    generateCavities R mTables availableCavities st = .undefined := by
  have hlen : (R.shuffle availableCavities st.rand).1.length = availableCavities.length :=
    (R.shuffle_perm availableCavities st.rand).length_eq
  unfold generateCavities
  simp only []
  rw [if_neg (by rw [hlen]; omega)]

theorem assignCavityTables_ok (R : RandomEngine) (ppTables : List Table) (n : Nat)
    (ps : List Nat) (rand : R.State) (objects : List Object)
    (hn : ppTables.length = n) (hpos : ps = [] ∨ 1 ≤ n) :
    ∃ res, assignCavityTables R ppTables n ps rand objects = .ok res := by
  induction ps generalizing rand objects with
  | nil => exact ⟨_, rfl⟩
  | cons p ps ih =>
    have h1 : 1 ≤ n := by
      rcases hpos with h | h
      · cases h
      · exact h
    have hdraw := (R.uniform_range 0 (sizeSub n 1) rand (Nat.zero_le _)).2
    rw [sizeSub_of_le h1] at hdraw
    have hlt : (R.uniform 0 (n - 1) rand).1 < ppTables.length := by omega
    obtain ⟨res, hres⟩ := ih (R.uniform 0 (n - 1) rand).2
      (setTables objects p ppTables[(R.uniform 0 (n - 1) rand).1]) (Or.inr h1)
    exact ⟨res, by
      simp only [assignCavityTables, sizeSub_of_le h1, List.getElem?_eq_getElem hlt, hres]⟩

/-- Cavity generation when the type list is long enough: `generateCavities` returns without
throwing; it appends `min(5 n, S)` objects, whose classifications are those of the first entries
of the shuffled type list, and returns the positions of the appended objects. -/
theorem generateCavities_count (R : RandomEngine) (mTables : List Table)
    (availableCavities : List ObjectType) (st : GenState R)
    (hk : min (countTables mTables "PP" * 5) (availableCavities.map (fun t => t.count)).sum
      ≤ availableCavities.length) :
    ∃ cavities st2, generateCavities R mTables availableCavities st = .ok (cavities, st2)
      ∧ st2.objects.length = st.objects.length
          + min (countTables mTables "PP" * 5) (availableCavities.map (fun t => t.count)).sum
      ∧ cavities = toPtr st.objects.length st2.objects.length
      ∧ (st2.objects.drop st.objects.length).map (fun o => o.toObjectBase)
          = ((R.shuffle availableCavities st.rand).1.take
              (min (countTables mTables "PP" * 5)
                (availableCavities.map (fun t => t.count)).sum)).map (fun t => t.toObjectBase)
      ∧ (∀ o ∈ st2.objects.drop st.objects.length,
          ∃ t ∈ availableCavities, o.toObjectBase = t.toObjectBase) := by
  have hlen : (R.shuffle availableCavities st.rand).1.length = availableCavities.length :=
    (R.shuffle_perm availableCavities st.rand).length_eq
  generalize hkdef : min (countTables mTables "PP" * 5)
    (availableCavities.map (fun t => t.count)).sum = k at *
  obtain ⟨old, htake, hold, hrlen⟩ := resizeObjects_take st k
  have holdlen : old.length = st.objects.length := by
    rcases hold with h | h <;> simp [h]
  have htaken : ((R.shuffle availableCavities st.rand).1.take k).length = k := by
    rw [List.length_take]; omega
  obtain ⟨f1, -, -, f4⟩ := objectsFromTypes_spec
    ((R.shuffle availableCavities st.rand).1.take k) (resizeObjects st k).globalID
  rw [htaken] at f1
  have hpp : (extractTablesByTypes mTables ["PP"]).length = countTables mTables "PP" := by
    simp [extractTablesByTypes, countTables]
  have hptr : toPtr ((resizeObjects st k).objects.length - k)
      (old ++ (objectsFromTypes ((R.shuffle availableCavities st.rand).1.take k)
        (resizeObjects st k).globalID).1).length
      = toPtr st.objects.length (st.objects.length + k) := by
    rw [hrlen, Nat.add_sub_cancel, List.length_append, f1, holdlen]
  have hpos : toPtr st.objects.length (st.objects.length + k) = [] ∨
      1 ≤ countTables mTables "PP" := by
    by_cases h0 : k = 0
    · left; simp [toPtr, h0]
    · right
      have : k ≤ countTables mTables "PP" * 5 := by rw [← hkdef]; exact Nat.min_le_left _ _
      omega
  obtain ⟨⟨rand2, objects2⟩, hassign⟩ := assignCavityTables_ok R
    (extractTablesByTypes mTables ["PP"]) (countTables mTables "PP")
    (toPtr st.objects.length (st.objects.length + k)) (R.shuffle availableCavities st.rand).2
    (old ++ (objectsFromTypes ((R.shuffle availableCavities st.rand).1.take k)
        (resizeObjects st k).globalID).1) hpp hpos
  have hbase := assignCavityTables_spec (fun o => o.toObjectBase) (fun _ _ => rfl)
    _ _ _ _ _ _ _ _ hassign
  have hlen2 : objects2.length = st.objects.length + k := by
    have := congrArg List.length hbase
    simpa [f1, holdlen] using this
  have hgen : ∃ st2, generateCavities R mTables availableCavities st
      = .ok (toPtr st.objects.length (st.objects.length + k), st2)
      ∧ st2.objects = objects2 := by
    unfold generateCavities
    simp only []
    rw [hkdef, if_pos (by rw [hlen]; exact hk), htake, hptr, hassign]
    exact ⟨_, rfl, rfl⟩
  obtain ⟨st2, hgen, hobj⟩ := hgen
  have hdrop : (objects2.drop st.objects.length).map (fun o => o.toObjectBase)
      = ((R.shuffle availableCavities st.rand).1.take k).map (fun t => t.toObjectBase) := by
    rw [List.map_drop, hbase, List.map_append, ← holdlen]
    rw [← List.length_map old (fun o => o.toObjectBase), List.drop_left, f4]
  subst hobj
  refine ⟨_, _, hgen, hlen2, by rw [hlen2], hdrop, ?_⟩
  intro o ho
  have hmem : o.toObjectBase
      ∈ (st2.objects.drop st.objects.length).map (fun o => o.toObjectBase) :=
    List.mem_map_of_mem _ ho
  rw [hdrop] at hmem
  obtain ⟨t, ht, hte⟩ := List.mem_map.mp hmem
  exact ⟨t, (R.shuffle_perm availableCavities st.rand).subset (List.mem_of_mem_take ht),
    hte.symm⟩

/-! Placement loop -/

theorem length_iterSwap (v : List Nat) (d l : Nat) : (iterSwap v d l).length = v.length := by
  unfold iterSwap
  split <;> simp

theorem iterSwap_getElem? (v : List Nat) (d l : Nat) (hd : d < v.length) (hl : l < v.length)
    (j : Nat) :
    (iterSwap v d l)[j]? = if j = l then v[d]? else if j = d then v[l]? else v[j]? := by
  unfold iterSwap
  rw [List.getElem?_eq_getElem hd, List.getElem?_eq_getElem hl]
  simp only [List.getElem?_set, List.length_set]
  by_cases h1 : j = l
  · subst h1
    simp [hl]
  · by_cases h2 : j = d
    · subst h2
      have h3 : ¬ l = j := fun h => h1 h.symm
      simp [h1, h3, hd]
    · have h3 : ¬ l = j := fun h => h1 h.symm
      have h4 : ¬ d = j := fun h => h2 h.symm
      simp [h1, h2, h3, h4]

theorem iterSwap_mem (v : List Nat) (d l : Nat) (hd : d < v.length) (hl : l < v.length)
    (x : Nat) : x ∈ iterSwap v d l ↔ x ∈ v := by
  simp only [List.mem_iff_getElem?]
  constructor
  · rintro ⟨j, hj⟩
    rw [iterSwap_getElem? v d l hd hl] at hj
    split_ifs at hj
    · exact ⟨d, hj⟩
    · exact ⟨l, hj⟩
    · exact ⟨j, hj⟩
  · rintro ⟨j, hj⟩
    by_cases h1 : j = d
    · exact ⟨l, by rw [iterSwap_getElem? v d l hd hl, if_pos rfl, ← h1]; exact hj⟩
    · by_cases h2 : j = l
      · subst h2
        by_cases h3 : d = j
        · exact absurd h3.symm h1
        · exact ⟨d, by rw [iterSwap_getElem? v d j hd hl, if_neg h3, if_pos rfl]; exact hj⟩
      · exact ⟨j, by rw [iterSwap_getElem? v d l hd hl, if_neg h2, if_neg h1]; exact hj⟩

theorem iterSwap_nodup (v : List Nat) (d l : Nat) (hd : d < v.length) (hl : l < v.length)
    (hv : v.Nodup) : (iterSwap v d l).Nodup := by
  rw [List.nodup_iff_getElem?_ne_getElem?]
  intro i j hij hj
  rw [length_iterSwap] at hj
  rw [iterSwap_getElem? v d l hd hl, iterSwap_getElem? v d l hd hl]
  intro heq
  have hi : i < v.length := by omega
  split_ifs at heq with h1 h2 h3 h4 h5 h6 <;>
    first
    | omega
    | (have hinj : _ = _ := List.getElem?_inj (by omega) hv heq
       omega)

/-- Swapping two valid positions of a duplicate-free pointer vector permutes it. -/
theorem iterSwap_perm (v : List Nat) (d l : Nat) (hd : d < v.length) (hl : l < v.length)
    (hv : v.Nodup) : (iterSwap v d l).Perm v :=
  (List.perm_ext_iff_of_nodup (iterSwap_nodup v d l hd hl hv) hv).mpr
    (iterSwap_mem v d l hd hl)

theorem toSize_natCast (n : Nat) : toSize (n : Int) = n := by
  simp [toSize]

theorem toSize_natCast_sub_one (m : Nat) (hm : 1 ≤ m) : toSize ((m : Int) - 1) = m - 1 := by
  have h0 : (0 : Int) ≤ (m : Int) - 1 := by omega
  simp only [toSize, h0, if_true]
  omega

theorem mem_take_of_getElem? (v : List Nat) (n j x : Nat) (hj : j < n) (hx : v[j]? = some x) :
    x ∈ v.take n := by
  rw [List.mem_iff_getElem?]
  exact ⟨j, by rw [List.getElem?_take, if_pos hj]; exact hx⟩

theorem getElem?_of_mem_take (v : List Nat) (n x : Nat) (hx : x ∈ v.take n) :
    ∃ j, j < n ∧ v[j]? = some x := by
  rw [List.mem_iff_getElem?] at hx
  obtain ⟨j, hj⟩ := hx
  rw [List.getElem?_take] at hj
  split_ifs at hj with h
  · exact ⟨j, h, hj⟩

/-- The placement loop run for fewer iterations than there are cavities, `last` starting on a
valid position at least as large as the number of iterations: every draw is a valid position,
the loop returns, it hands as many cavities to `place` as it has iterations, and they are
pairwise distinct. -/
theorem placedCavities_distinct (R : RandomEngine) (i : Nat) (cavities : List Nat) (m : Nat)
    (rand : R.State) (hv : cavities.Nodup) (hi : i ≤ m) (hm : m < cavities.length) :
    ∃ placed, placedCavities R i cavities (m : Int) rand = .ok placed
      ∧ placed.length = i ∧ placed.Nodup ∧ ∀ x ∈ placed, x ∈ cavities.take (m + 1) := by
  induction i generalizing cavities m rand with
  | zero => exact ⟨[], rfl, rfl, List.nodup_nil, fun x hx => by cases hx⟩
  | succ i ih =>
    have hm1 : 1 ≤ m := by omega
    have hdraw := (R.uniform_range 0 (toSize ((m : Int) - 1)) rand (Nat.zero_le _)).2
    rw [toSize_natCast_sub_one m hm1] at hdraw
    have hd : (R.uniform 0 (m - 1) rand).1 < cavities.length := by omega
    have hcast : ((m : Int) - 1) = ((m - 1 : Nat) : Int) := by omega
    have hcond : (0 : Int) ≤ (m : Int) ∧ (m : Int).toNat < cavities.length :=
      ⟨by omega, by simpa using hm⟩
    obtain ⟨rest, hrest, hlen, hnd, hmem⟩ := ih
      (iterSwap cavities (R.uniform 0 (m - 1) rand).1 m) (m - 1)
      (R.uniform 0 (m - 1) rand).2
      (iterSwap_nodup cavities _ m hd hm hv) (by omega) (by rw [length_iterSwap]; omega)
    have hsub : m - 1 + 1 = m := by omega
    rw [hsub] at hmem
    refine ⟨cavities[(R.uniform 0 (m - 1) rand).1] :: rest, ?_, by simp [hlen], ?_, ?_⟩
    · simp only [placedCavities, hcast, toSize_natCast, List.getElem?_eq_getElem hd,
        Int.toNat_ofNat, hm, Int.natCast_nonneg, and_self, if_true, hrest]
    · rw [List.nodup_cons]
      refine ⟨?_, hnd⟩
      intro hin
      obtain ⟨j, hj, hjx⟩ := getElem?_of_mem_take _ _ _ (hmem _ hin)
      have hlast : (iterSwap cavities (R.uniform 0 (m - 1) rand).1 m)[m]?
          = some cavities[(R.uniform 0 (m - 1) rand).1] := by
        rw [iterSwap_getElem? cavities _ m hd hm, if_pos rfl, List.getElem?_eq_getElem hd]
      have := List.getElem?_inj (by rw [length_iterSwap]; omega)
        (iterSwap_nodup cavities _ m hd hm hv) (hjx.trans hlast.symm)
      omega
    · intro x hx
      rcases List.mem_cons.mp hx with rfl | hx
      · exact mem_take_of_getElem? cavities (m + 1) _ _ (by omega)
          (List.getElem?_eq_getElem hd)
      · obtain ⟨j, hj, hjx⟩ := getElem?_of_mem_take _ _ _ (hmem _ hx)
        rw [iterSwap_getElem? cavities _ m hd hm] at hjx
        split_ifs at hjx with h1 h2
        · omega
        · exact mem_take_of_getElem? cavities (m + 1) m _ (by omega) hjx
        · exact mem_take_of_getElem? cavities (m + 1) j _ (by omega) hjx

/-- The recorded loop and the loop of `generate` take the same course: one returns exactly when
the other does. -/
theorem placedCavities_isOk (R : RandomEngine) (d : TaskDefinition) (i : Nat)
    (cavities : List Nat) (last : Int) (rand : R.State) (objects : List Object) :
    (placedCavities R i cavities last rand).isOk
      = (fillCavities R d i cavities last rand objects).isOk := by
  induction i generalizing cavities last rand objects with
  | zero => rfl
  | succ i ih =>
    simp only [placedCavities, fillCavities]
    split
    · rfl
    · rename_i target _
      split_ifs
      · rw [← ih (iterSwap cavities (R.uniform 0 (toSize (last - 1)) rand).1 last.toNat)
          (last - 1) (R.uniform 0 (toSize (last - 1)) rand).2 (place d objects target)]
        cases placedCavities R i
          (iterSwap cavities (R.uniform 0 (toSize (last - 1)) rand).1 last.toNat) (last - 1)
          (R.uniform 0 (toSize (last - 1)) rand).2 <;> rfl
      · rfl

/-- The placement loop of `generate` run for fewer iterations than there are cavities: every
drawn position is valid and the loop returns. -/
theorem fillCavities_ok (R : RandomEngine) (d : TaskDefinition) (i : Nat) (cavities : List Nat)
    (m : Nat) (rand : R.State) (objects : List Object) (hi : i ≤ m)
    (hm : m < cavities.length) :
    ∃ res, fillCavities R d i cavities (m : Int) rand objects = .ok res := by
  induction i generalizing cavities m rand objects with
  | zero => exact ⟨_, rfl⟩
  | succ i ih =>
    have hm1 : 1 ≤ m := by omega
    have hdraw := (R.uniform_range 0 (toSize ((m : Int) - 1)) rand (Nat.zero_le _)).2
    rw [toSize_natCast_sub_one m hm1] at hdraw
    have hd : (R.uniform 0 (m - 1) rand).1 < cavities.length := by omega
    have hcast : ((m : Int) - 1) = ((m - 1 : Nat) : Int) := by omega
    obtain ⟨res, hres⟩ := ih
      (iterSwap cavities (R.uniform 0 (m - 1) rand).1 m) (m - 1)
      (R.uniform 0 (m - 1) rand).2
      (place d objects cavities[(R.uniform 0 (m - 1) rand).1])
      (by omega) (by rw [length_iterSwap]; omega)
    exact ⟨res, by
      simp only [fillCavities, hcast, toSize_natCast, List.getElem?_eq_getElem hd,
        Int.toNat_ofNat, hm, Int.natCast_nonneg, and_self, if_true, hres]⟩

/-- Whenever the placement loop returns, the pointer vector it leaves is a permutation of the
one it started with (the pointers being pairwise distinct). -/
theorem fillCavities_perm (R : RandomEngine) (d : TaskDefinition) (i : Nat)
    (cavities : List Nat) (last : Int) (rand : R.State) (objects : List Object)
    (res : List Nat × R.State × List Object) (hv : cavities.Nodup)
    (h : fillCavities R d i cavities last rand objects = .ok res) :
    res.1.Perm cavities := by
  induction i generalizing cavities last rand objects with
  | zero =>
    simp only [fillCavities, Outcome.ok.injEq] at h
    rw [← h]
  | succ i ih =>
    simp only [fillCavities] at h
    split at h
    · simp at h
    · rename_i target htarget
      split_ifs at h with hc
      have hd : (R.uniform 0 (toSize (last - 1)) rand).1 < cavities.length := by
        by_contra hge
        rw [List.getElem?_eq_none (by omega)] at htarget
        cases htarget
      have hl : last.toNat < cavities.length := hc.2
      exact (ih _ _ _ _ (iterSwap_nodup cavities _ _ hd hl hv) h).trans
        (iterSwap_perm cavities _ _ hd hl hv)

theorem nodup_toPtr (start stop : Nat) : (toPtr start stop).Nodup := by
  unfold toPtr
  exact (List.nodup_range _).map (fun a b hab => by simpa using hab)

theorem generateCavities_ptrs_nodup (R : RandomEngine) (mTables : List Table)
    (availableCavities : List ObjectType) (st : GenState R) (cavities : List Nat)
    (st2 : GenState R)
    (h : generateCavities R mTables availableCavities st = .ok (cavities, st2)) :
    cavities.Nodup := by
  unfold generateCavities at h
  simp only [] at h
  split_ifs at h with hk
  split at h
  · simp only [Outcome.ok.injEq, Prod.mk.injEq] at h
    rw [← h.1]
    exact nodup_toPtr _ _
  · simp at h
  · simp at h

/-- The cavity-count check of `generate`, for a task that passes the task-level check and a
non-negative `pp`: the call throws the cavity error exactly when fewer cavities were generated
than `pp` asks for; the message then holds both numbers; and when `pp` is below the number of
cavities the placement loop returns, having handed `pp` pairwise distinct cavities to `place`. -/
theorem insufficientCavities_iff (R : RandomEngine) (g : TaskGeneratorImpl R) (taskName : Str)
    (availableObjects : List ObjectType) (cavities : List Nat) (st1 : GenState R)
    (hobj : extractObjectTypes g.mTasks taskName = .ok availableObjects)
    (hcheck : sanityCheckTask g.mTasks g.mTables taskName availableObjects = .ok ())
    (hcav : generateCavities R g.mTables g.mAvailableCavities (startState R g taskName)
      = .ok (cavities, st1))
    (hpp : 0 ≤ (taskDef g.mTasks taskName).opt "pp") :
    ((∃ w, generateObjects R g taskName = .thrown .InsufficientCavities w)
      ↔ (cavities.length : Int) < (taskDef g.mTasks taskName).opt "pp")
    ∧ ((cavities.length : Int) < (taskDef g.mTasks taskName).opt "pp" →
        generateObjects R g taskName = .thrown .InsufficientCavities
          (notEnoughCavities cavities.length ((taskDef g.mTasks taskName).opt "pp")))
    ∧ List.IsInfix (toString cavities.length).toList
        (notEnoughCavities cavities.length ((taskDef g.mTasks taskName).opt "pp"))
    ∧ List.IsInfix (toString ((taskDef g.mTasks taskName).opt "pp")).toList
        (notEnoughCavities cavities.length ((taskDef g.mTasks taskName).opt "pp"))
    ∧ ((taskDef g.mTasks taskName).opt "pp" < (cavities.length : Int) →
        ∃ placed, placedCavities R (toSize ((taskDef g.mTasks taskName).opt "pp")) cavities
            ((cavities.length : Int) - 1) st1.rand = .ok placed
          ∧ (placed.length : Int) = (taskDef g.mTasks taskName).opt "pp"
          ∧ placed.Nodup) := by
  generalize hppdef : (taskDef g.mTasks taskName).opt "pp" = pp at *
  have hlt : cavities.length < toSize pp ↔ (cavities.length : Int) < pp :=
    toSize_of_nonneg hpp _
  unfold startState at hcav
  have hthrow : (cavities.length : Int) < pp →
      generateObjects R g taskName
        = .thrown .InsufficientCavities (notEnoughCavities cavities.length pp) := by
    intro h
    unfold generateObjects
    simp only [hobj, hcheck, hppdef]
    split
    · rename_i c s heq
      have e := heq.symm.trans hcav
      simp only [Outcome.ok.injEq, Prod.mk.injEq] at e
      obtain ⟨rfl, rfl⟩ := e
      simp only [hlt.mpr h, if_true]
    · rename_i k w heq
      exact absurd (heq.symm.trans hcav) (by simp)
    · rename_i heq
      exact absurd (heq.symm.trans hcav) (by simp)
  refine ⟨⟨?_, fun h => ⟨_, hthrow h⟩⟩, hthrow, ?_, ?_, ?_⟩
  · rintro ⟨w, hw⟩
    by_contra hge
    have hnot : ¬ cavities.length < toSize pp := fun h => hge (hlt.mp h)
    unfold generateObjects at hw
    simp only [hobj, hcheck, hppdef] at hw
    split at hw
    · rename_i c s heq
      have e := heq.symm.trans hcav
      simp only [Outcome.ok.injEq, Prod.mk.injEq] at e
      obtain ⟨rfl, rfl⟩ := e
      simp only [hnot, if_false] at hw
      split at hw
      · split at hw
        · split_ifs at hw
          · simp at hw
          · split at hw
            · simp at hw
            · rename_i heq; exact absurd heq (fillContainers_not_thrown _ _ _ _ _ _ _ _)
            · simp at hw
        · rename_i heq; exact absurd heq (generateContainers_not_thrown _ _ _ _ _ _ _)
        · simp at hw
      · rename_i heq; exact absurd heq (fillCavities_not_thrown _ _ _ _ _ _ _ _ _)
      · simp at hw
    · rename_i k w heq
      exact absurd (heq.symm.trans hcav) (by simp)
    · rename_i heq
      exact absurd (heq.symm.trans hcav) (by simp)
  · exact ⟨"Not enough cavities generated! Generated ".toList,
      ", min Necessary: ".toList ++ (toString pp).toList ++ "!".toList, by
        simp [notEnoughCavities, List.append_assoc]⟩
  · exact ⟨"Not enough cavities generated! Generated ".toList
        ++ (toString cavities.length).toList ++ ", min Necessary: ".toList,
      "!".toList, by simp [notEnoughCavities, List.append_assoc]⟩
  · intro hsmall
    have hnd := generateCavities_ptrs_nodup R _ _ _ _ _ hcav
    have hlen1 : 1 ≤ cavities.length := by omega
    have hcast : ((cavities.length : Int) - 1) = ((cavities.length - 1 : Nat) : Int) := by omega
    have hsz : toSize pp = pp.toNat := by simp [toSize, hpp]
    obtain ⟨placed, h1, h2, h3, -⟩ := placedCavities_distinct R (toSize pp) cavities
      (cavities.length - 1) st1.rand hnd (by rw [hsz]; omega) (by omega)
    refine ⟨placed, by rw [hcast]; exact h1, ?_, h3⟩
    rw [h2, hsz]
    omega

/-! Evaluations on sample inputs -/

theorem toSize_neg_one : toSize ((0 : Int) - 1) = 18446744073709551615 := by
  norm_num [toSize]
  rfl

/-- C19: with one table of type `PP` and a single cavity type of which five are available, the
number of cavities to generate is `min(5, 5) = 5` while the available-cavity-type list has one
entry: `transform` reads five entries from the start of a list of one, past its end, and
`generateCavities` has no defined result. -/
theorem cavity_prefix_past_end :
    extractCavities fiveCavityArena = .ok fiveCavityGenerator.mAvailableCavities
    ∧ countTables fiveCavityGenerator.mTables "PP" = 1
    ∧ (fiveCavityGenerator.mAvailableCavities.map (fun t => t.count)).sum = 5
    ∧ min (countTables fiveCavityGenerator.mTables "PP" * 5)
        (fiveCavityGenerator.mAvailableCavities.map (fun t => t.count)).sum = 5
    ∧ fiveCavityGenerator.mAvailableCavities.length = 1
    ∧ ¬ (min (countTables fiveCavityGenerator.mTables "PP" * 5)
          (fiveCavityGenerator.mAvailableCavities.map (fun t => t.count)).sum
        ≤ fiveCavityGenerator.mAvailableCavities.length)
    ∧ generateCavities sampleEngine fiveCavityGenerator.mTables
        fiveCavityGenerator.mAvailableCavities
        { rand := (1 : Nat), globalID := 0, objects := [], capacity := 0 } = .undefined :=
  ⟨by decide, by decide, by decide, by decide, by decide, by decide, rfl⟩

/-- C12: with one table of type `PP` and three cavity types of which two each are available
(`n = 1`, `S = 6`), `generateCavities` is to append `min(5, 6) = 5` cavities, but only three
entries can be read from the type list: the function has no defined result, inside `generate`
as well, where the task passes both feasibility checks. -/
theorem generateCavities_five_of_three_types :
    countTables threeTypeGenerator.mTables "PP" = 1
    ∧ (threeTypeGenerator.mAvailableCavities.map (fun t => t.count)).sum = 6
    ∧ threeTypeGenerator.mAvailableCavities.length = 3
    ∧ generateCavities sampleEngine threeTypeGenerator.mTables
        threeTypeGenerator.mAvailableCavities
        { rand := (1 : Nat), globalID := 0, objects := [], capacity := 0 } = .undefined
    ∧ sanityCheck threeTypeGenerator.mTasks threeTypeGenerator.mTables = .ok ()
    ∧ sanityCheckTask threeTypeGenerator.mTasks threeTypeGenerator.mTables "BTT7".toList
        [⟨⟨.COLORED_OBJECT, "F20_20".toList, "B".toList, .FREE⟩, 1⟩] = .ok ()
    ∧ generateObjects sampleEngine threeTypeGenerator "BTT7".toList = .undefined :=
  ⟨by decide, by decide, by decide, rfl, by decide, by decide, rfl⟩

/-- C14: in an arena without tables of type `05`, `10` and `15`, a task asking for
`table_height_5`, for `table_height_10` or for `table_height_15` is rejected with one and the
same message, which speaks of the 5cm table in all three cases. -/
theorem table_height_messages_coincide :
    sanityCheckTask [("BTT8".toList, [("table_height_5".toList, 1)])] shelfTables "BTT8".toList
        [⟨⟨.OBJECT, "M20".toList, "DEFAULT".toList, .FREE⟩, 1⟩]
      = .thrown .InfeasibleConfiguration
          "BTT8: Transportation Task involving 5cm table requested in Arena without it!".toList
    ∧ sanityCheckTask [("BTT8".toList, [("table_height_10".toList, 1)])] shelfTables
        "BTT8".toList [⟨⟨.OBJECT, "M20".toList, "DEFAULT".toList, .FREE⟩, 1⟩]
      = .thrown .InfeasibleConfiguration
          "BTT8: Transportation Task involving 5cm table requested in Arena without it!".toList
    ∧ sanityCheckTask [("BTT8".toList, [("table_height_15".toList, 1)])] shelfTables
        "BTT8".toList [⟨⟨.OBJECT, "M20".toList, "DEFAULT".toList, .FREE⟩, 1⟩]
      = .thrown .InfeasibleConfiguration
          "BTT8: Transportation Task involving 5cm table requested in Arena without it!".toList
    ∧ sanityCheckTask [("BTT8".toList, [("table_height_0".toList, 1)])] shelfTables
        "BTT8".toList [⟨⟨.OBJECT, "M20".toList, "DEFAULT".toList, .FREE⟩, 1⟩]
      = .thrown .InfeasibleConfiguration
          ("BTT8: Transportation Task involving zero height table requested in Arena "
            ++ "without it!").toList := by
  decide

/-- C15: with `container_in_shelf` set, the table types asked of the registry are `00`, `05`,
`10`, `15` and `Shelf`; on a registry holding a table of height 10 and a shelf of type `SH` (the
type the feasibility check counts for `shelf_grasping`) the candidate set is the height-10 table
alone: the shelf is not a candidate. -/
theorem shelf_not_a_container_candidate :
    allowedTableTypes [("container_in_shelf".toList, 1)] = ["00", "05", "10", "15", "Shelf"]
    ∧ extractTablesByTypes heightAndShelfTables
        (allowedTableTypes [("container_in_shelf".toList, 1)])
      = [{ name := "WS01".toList, type := "10".toList }]
    ∧ ({ name := "WS02".toList, type := "SH".toList } : Table) ∈ heightAndShelfTables
    ∧ ({ name := "WS02".toList, type := "SH".toList } : Table)
        ∉ extractTablesByTypes heightAndShelfTables
            (allowedTableTypes [("container_in_shelf".toList, 1)])
    ∧ countTables heightAndShelfTables "SH" = 1
    ∧ sanityCheckTask [("BTT9".toList, [("shelf_grasping".toList, 1)])] heightAndShelfTables
        "BTT9".toList [⟨⟨.OBJECT, "M20".toList, "DEFAULT".toList, .FREE⟩, 1⟩] = .ok () := by
  decide

/-- C18: with one generated cavity and `pp = 1` the cavity-count check passes; in the only
iteration `last` is the first position, so the draw ranges over `0 .. size_t(0 - 1)`, that is
`0 .. 2^64 - 1`; the sample engine draws 282475249, which is no position of the one-element
pointer vector, and the read `*selected` is out of range. -/
theorem fill_loop_draw_out_of_range :
    ∃ st1, generateCavities sampleEngine onePlacementGenerator.mTables
        onePlacementGenerator.mAvailableCavities
        (startState sampleEngine onePlacementGenerator "BTT5".toList) = .ok ([0], st1)
      ∧ ¬ (([0] : List Nat).length
          < toSize ((taskDef onePlacementGenerator.mTasks "BTT5".toList).opt "pp"))
      ∧ toSize (((([0] : List Nat).length : Int) - 1) - 1) = 18446744073709551615
      ∧ (sampleEngine.uniform 0 18446744073709551615 st1.rand).1 = 282475249
      ∧ ([0] : List Nat)[282475249]? = none
      ∧ fillCavities sampleEngine (taskDef onePlacementGenerator.mTasks "BTT5".toList)
          (toSize ((taskDef onePlacementGenerator.mTasks "BTT5".toList).opt "pp")) [0]
          ((([0] : List Nat).length : Int) - 1) st1.rand st1.objects = .undefined :=
  ⟨_, rfl, by decide, toSize_neg_one, rfl, rfl, rfl⟩

/-- C11: with one generated cavity and `pp = 1` the task passes the task-level check and the
cavity-count check does not throw, but the placement loop does not carry out its one placement
step: its draw over `0 .. 2^64 - 1` leaves the pointer vector and `generate` has no defined
result. -/
theorem one_placement_not_carried_out :
    sanityCheckTask onePlacementGenerator.mTasks onePlacementGenerator.mTables "BTT5".toList
        [⟨⟨.COLORED_OBJECT, "F20_20".toList, "B".toList, .FREE⟩, 1⟩] = .ok ()
    ∧ (taskDef onePlacementGenerator.mTasks "BTT5".toList).opt "pp" = 1
    ∧ (∃ st1, generateCavities sampleEngine onePlacementGenerator.mTables
        onePlacementGenerator.mAvailableCavities
        (startState sampleEngine onePlacementGenerator "BTT5".toList) = .ok ([0], st1)
      ∧ placedCavities sampleEngine
          (toSize ((taskDef onePlacementGenerator.mTasks "BTT5".toList).opt "pp")) [0]
          ((([0] : List Nat).length : Int) - 1) st1.rand = .undefined)
    ∧ (∀ w, generateObjects sampleEngine onePlacementGenerator "BTT5".toList
        ≠ .thrown .InsufficientCavities w)
    ∧ generateObjects sampleEngine onePlacementGenerator "BTT5".toList = .undefined :=
  ⟨by decide, by decide, ⟨_, rfl, rfl⟩,
    fun w h => Outcome.noConfusion
      ((rfl : generateObjects sampleEngine onePlacementGenerator "BTT5".toList
        = .undefined).symm.trans h),
    rfl⟩

/-- C17: with two generated cavities and `pp = 2`, and the draws 0 and then 1 in the loop, the
first iteration places the cavity at position 0 and swaps it to the back; in the second
iteration `last` is the first position, the draw ranges over `0 .. 2^64 - 1`, the drawn
position 1 holds the cavity placed before, and that cavity is placed a second time. -/
theorem placement_repeats_a_cavity :
    ∃ st1, generateCavities scriptedEngine twoPlacementGenerator.mTables
        twoPlacementGenerator.mAvailableCavities
        (startState scriptedEngine twoPlacementGenerator "BTT6".toList) = .ok ([0, 1], st1)
      ∧ st1.rand = [0, 1]
      ∧ (taskDef twoPlacementGenerator.mTasks "BTT6".toList).opt "pp" = 2
      ∧ ¬ (([0, 1] : List Nat).length
          < toSize ((taskDef twoPlacementGenerator.mTasks "BTT6".toList).opt "pp"))
      ∧ placedCavities scriptedEngine
          (toSize ((taskDef twoPlacementGenerator.mTasks "BTT6".toList).opt "pp")) [0, 1]
          ((([0, 1] : List Nat).length : Int) - 1) st1.rand = .ok [0, 0]
      ∧ ¬ ([0, 0] : List Nat).Nodup
      ∧ (generateObjects scriptedEngine twoPlacementGenerator "BTT6".toList).isOk = true :=
  ⟨_, rfl, rfl, by decide, by decide, rfl, by decide, rfl⟩

end atwork_refbox_ros
